import Mathlib

/-!
# Verification of the codecbench streaming container and pipeline orchestrator

A shallow embedding of `src/codecbench.cpp`: byte streams are `List Nat`
(one entry per byte), file state is passed explicitly, and the two external
codec capabilities (decompressor / compressor) are opaque function
parameters, as the design treats them as external collaborators.

Machine arithmetic: the C++ code computes frame sizes in `int` / `DWORD`.
Signed overflow there is undefined behaviour, so the embedding works in
`Int` with C truncating division (`Int.tdiv`); the two coincide on every
input where the C program has defined behaviour and no wrap-around, which
covers all claims (they constrain width to be positive and implicitly
in-range).  `readVar<T>` on a too-short stream leaves the destination
indeterminate in C++; the embedding makes that explicit with a `junk`
parameter instead of picking a fixed value.
-/

/-- Little-endian bytes of a 32-bit value, as `writeVar<uint32_t>` emits them
on the (little-endian) target platform. -/
def encodeU32 (n : Nat) : List Nat :=
  [n % 256, n / 256 % 256, n / 65536 % 256, n / 16777216 % 256]

/-- Value of the first four bytes of a stream, little-endian, as
`readVar<uint32_t>` assembles them.  Lists shorter than four bytes fall
through to `0`; callers guard that case (see `readU32`). -/
def decodeU32 (bs : List Nat) : Nat :=
  match bs with
  | b0 :: b1 :: b2 :: b3 :: _ => b0 + 256 * b1 + 65536 * b2 + 16777216 * b3
  | _ => 0

/-- `readVar<uint32_t>`: when at least four bytes remain the value read from
the stream; otherwise the extraction fails and the C++ local is left
indeterminate, which the model represents by the parameter `junk`. -/
def readU32 (junk : Nat) (bs : List Nat) : Nat :=
  if 4 ≤ bs.length then decodeU32 bs else junk

/-- `align_to<4>` from the source (computed there in `uintptr_t`; on the
modeled non-negative range C unsigned division and `Int.tdiv` agree). -/
def align4 (v : Int) : Int :=
  ((v + 3).tdiv 4) * 4

/-- The FOURCC packing `mmioFOURCC`. -/
def mmioFOURCC (a b c d : Char) : Nat :=
  a.toNat + 256 * b.toNat + 65536 * c.toNat + 16777216 * d.toNat

/-- The fields of `BITMAPINFOHEADER` that `GetDecompFormat` populates
(`biSize = 40`, `biPlanes = 1` are fixed and omitted). -/
structure BIH where
  biWidth : Int
  biHeight : Int
  biBitCount : Nat
  biCompression : Nat
  biSizeImage : Int
deriving Repr, DecidableEq

/-- `GetDecompFormat`: maps a symbolic format name plus dimensions to a
populated format descriptor, or fails for a name outside the enumerated
set.  Division is C truncating division (`Int.tdiv`). -/
def GetDecompFormat (format : String) (width height : Int) : Except String BIH :=
  if format = "RGB24" ∨ format = "bgr24" then
    .ok ⟨width, height, 24, 0, align4 (width * 3) * |height|⟩
  else if format = "RGB32" ∨ format = "bgr32" then
    .ok ⟨width, height, 32, 0, width * 4 * |height|⟩
  else if format = "BGRA" then
    .ok ⟨width, height, 32, mmioFOURCC 'B' 'G' 'R' 'A', width * 4 * |height|⟩
  else if format = "AYUV" then
    .ok ⟨width, height, 32, mmioFOURCC 'A' 'Y' 'U' 'V', width * 4 * |height|⟩
  else if format = "YUY2" then
    .ok ⟨width, height, 16, mmioFOURCC 'Y' 'U' 'Y' '2', width * 2 * |height|⟩
  else if format = "UYVY" then
    .ok ⟨width, height, 16, mmioFOURCC 'U' 'Y' 'V' 'Y', width * 2 * |height|⟩
  else if format = "YV12" then
    .ok ⟨width, height, 12, mmioFOURCC 'Y' 'V' '1' '2', (width * |height| * 3).tdiv 2⟩
  else if format = "YV24" then
    .ok ⟨width, height, 24, mmioFOURCC 'Y' 'V' '2' '4', width * |height| * 3⟩
  else if format = "Y8" then
    .ok ⟨width, height, 8, mmioFOURCC 'Y' '8' ' ' ' ', width * |height|⟩
  else if format = "b64a" then
    .ok ⟨width, height, 64, mmioFOURCC 'b' '6' '4' 'a', width * 8 * |height|⟩
  else if format = "b48r" then
    .ok ⟨width, height, 48, mmioFOURCC 'b' '4' '8' 'r', width * 6 * |height|⟩
  else if format = "v210" then
    .ok ⟨width, height, 20, mmioFOURCC 'v' '2' '1' '0', ((width + 47).tdiv 48) * 128 * |height|⟩
  else if format = "r210" then
    .ok ⟨width, height, 30, mmioFOURCC 'r' '2' '1' '0', ((width + 63).tdiv 64) * 256 * |height|⟩
  else
    .error ("Invalid requested decompressed format: " ++ format)

/-- The enumerated set of format names `GetDecompFormat` accepts. -/
def supportedFormats : List String :=
  ["RGB24", "bgr24", "RGB32", "bgr32", "BGRA", "AYUV", "YUY2", "UYVY",
   "YV12", "YV24", "Y8", "b64a", "b48r", "v210", "r210"]

/-- `biSizeImage` as read out of a raw `BITMAPINFOHEADER` byte block
(offset 20), used by `getFormat()->biSizeImage`. -/
def bihSizeImage (bs : List Nat) : Nat :=
  decodeU32 (bs.drop 20)

/-- The state of a `VideoReader`: the opened file's bytes, the stream
position and status (for the reads this program performs, `eofbit` and
`failbit` are always set together, collapsed into `good`), and the
reader's fields `m_raw`, `m_biFormat` (byte content), `m_headerSize`,
`m_frameBuf`, `m_frameSize`.  `sizeImage` caches `getFormat()->biSizeImage`,
the only descriptor field `readFrame` consults (raw mode). -/
structure ReaderState where
  content : List Nat
  pos : Nat
  good : Bool
  raw : Bool
  fmtBytes : List Nat
  sizeImage : Nat
  headerSize : Nat
  frameBuf : List Nat
  frameSize : Nat
deriving Repr, DecidableEq

/-- `VideoReader::open`: validate the magic, read the format block of
declared size, record the header length.  `fileOk` stands for the file
opening successfully; `junk` is the indeterminate value of a failed
`readVar` (a partially-read u32 is approximated by `junk` as well; no
claim distinguishes a 1-3 byte prefix from an empty one). -/
def VideoReader.openFile (fileOk : Bool) (junk : Nat) (content : List Nat) :
    Except String ReaderState :=
  if fileOk = false then Except.error "ERROR: Failed to open file" else
  let g1 := decide (4 ≤ content.length)
  let magic := readU32 junk content
  if magic ≠ 0xABCDEF01 then Except.error "ERROR: Invalid file magic" else
  let pos1 := min 4 content.length
  let rem1 := content.drop pos1
  let formatSize := if g1 then readU32 junk rem1 else junk
  let g2 := g1 && decide (4 ≤ rem1.length)
  let pos2 := if g1 then pos1 + min 4 rem1.length else pos1
  let rem2 := content.drop pos2
  let avail := if g2 then rem2.take formatSize else []
  let g3 := g2 && decide (formatSize ≤ rem2.length)
  let pos3 := if g2 then pos2 + min formatSize rem2.length else pos2
  let fmtB := avail ++ List.replicate (formatSize - avail.length) 0
  Except.ok { content := content, pos := pos3, good := g3, raw := false,
              fmtBytes := fmtB, sizeImage := bihSizeImage fmtB,
              headerSize := 8 + formatSize, frameBuf := [], frameSize := 0 }

/-- `VideoReader::openRaw`: resolve the descriptor through
`GetDecompFormat` (before any file access, so its failure propagates
first), then open the file; header offset is zero. -/
def VideoReader.openRaw (fileOk : Bool) (format : String) (width height : Int)
    (content : List Nat) : Except String ReaderState :=
  match GetDecompFormat format width height with
  | .error e => .error e
  | .ok bih =>
    if fileOk = false then Except.error "ERROR: Failed to open file" else
    Except.ok { content := content, pos := 0, good := true, raw := true,
                fmtBytes := [], sizeImage := bih.biSizeImage.toNat,
                headerSize := 0, frameBuf := [], frameSize := 0 }

/-- `VideoReader::rewind`: `clear()` then `seekg(m_headerSize)` — no header
re-parsing. -/
def VideoReader.rewind (s : ReaderState) : ReaderState :=
  { s with good := true, pos := s.headerSize }

/-- `VideoReader::readFrame`.  Container mode reads a 4-byte length prefix
then that many bytes; raw mode reads `biSizeImage` bytes.  Mirrors the C++
exactly: the size is assigned before any check, the buffer only grows
(zero-filled), a read on an already-failed stream is a no-op, and a short
read stores the bytes it got and fails.  `junk` is the indeterminate value
`readVar` leaves when the prefix read fails. -/
def VideoReader.readFrame (junk : Nat) (s : ReaderState) : Bool × ReaderState :=
  if s.good = false then (false, s)
  else
    let rem := s.content.drop s.pos
    let size := if s.raw then s.sizeImage else readU32 junk rem
    let pos1 := if s.raw then s.pos else s.pos + min 4 rem.length
    let good1 := if s.raw then true else decide (4 ≤ rem.length)
    let buf0 := if s.frameBuf.length < size
                then s.frameBuf ++ List.replicate (size - s.frameBuf.length) 0
                else s.frameBuf
    if good1 then
      let rem2 := s.content.drop pos1
      let got := min size rem2.length
      let ok2 := decide (size ≤ rem2.length)
      (ok2, { s with pos := pos1 + got, good := ok2,
                     frameBuf := rem2.take size ++ buf0.drop got, frameSize := size })
    else
      (false, { s with pos := pos1, good := false, frameBuf := buf0, frameSize := size })

/-- The bytes of the current frame, as exposed by `frameData()` /
`frameSize()`: the first `m_frameSize` bytes of `m_frameBuf`. -/
def frameBytes (s : ReaderState) : List Nat :=
  s.frameBuf.take s.frameSize

/-- Iterate `readFrame` `n` times, keeping only the final state. -/
def readN (junk : Nat) : Nat → ReaderState → ReaderState
  | 0, s => s
  | n + 1, s => readN junk n (VideoReader.readFrame junk s).2

/-- Iterate `readFrame`, collecting the frames of each successful call and
stopping at the first end-of-stream. -/
def readFrames (junk : Nat) : Nat → ReaderState → List (List Nat) × ReaderState
  | 0, s => ([], s)
  | n + 1, s =>
    let r := VideoReader.readFrame junk s
    if r.1 then
      let rest := readFrames junk n r.2
      (frameBytes r.2 :: rest.1, rest.2)
    else ([], r.2)

/-- `VideoWriter::open`: with a descriptor, emit the magic, the descriptor's
declared `biSize`, and that many descriptor bytes (container mode); with
none, emit nothing (raw mode).  The result is the byte stream written. -/
def VideoWriter.openFile (fmt : Option (List Nat)) : List Nat :=
  match fmt with
  | none => []
  | some f =>
    let biSize := decodeU32 f
    encodeU32 0xABCDEF01 ++ encodeU32 biSize ++ f.take biSize

/-- `VideoWriter::writeFrame`: a 4-byte length prefix (container mode only)
followed by `frameSize` bytes of the data buffer. -/
def VideoWriter.writeFrame (raw : Bool) (data : List Nat) (frameSize : Nat) : List Nat :=
  (if raw then [] else encodeU32 frameSize) ++ data.take frameSize

/-- The container encoding of one frame, as produced by a container-mode
`writeFrame` on a buffer of exactly the frame's size. -/
def frameChunk (f : List Nat) : List Nat :=
  VideoWriter.writeFrame false f f.length

/-- The container encoding of a frame sequence. -/
def encFrames (fs : List (List Nat)) : List Nat :=
  (fs.map frameChunk).flatten

/-- The full byte stream produced by a container-mode `VideoWriter::open`
followed by one `writeFrame` per frame. -/
def containerBytes (fmt : List Nat) (fs : List (List Nat)) : List Nat :=
  VideoWriter.openFile (some fmt) ++ encFrames fs

/-- The run configuration `CodecBench::run` works under: the stage-enable
flags and limits from `initArguments`/`initInput`/`initOutput`, plus the two
external codec capabilities.  `decodeFn` models `ICDecompress` writing into
the decompressor's buffer of fixed size `decodeOutSize`
(`m_biFormatOut->biSizeImage`); `compressFn` models `ICSeqCompressFrame`,
whose output frame is returned with its exact size.  `junk` is the
indeterminate of a failed prefix read (see `VideoReader.readFrame`). -/
structure RunCfg where
  decompress : Bool
  compress : Bool
  writeOut : Bool
  rawout : Bool
  framesToProcess : Nat
  loopCount : Nat
  decodeFn : List Nat → List Nat
  decodeOutSize : Nat
  compressFn : List Nat → List Nat
  junk : Nat

/-- The mutable state of `CodecBench::run`: the reader, the bytes written so
far, the loop counters and the cumulative statistics.  The two `Brackets`
counters count `Timer` begin/end pairs (`numSamples`); wall-clock durations
are outside the model.  `stop` is the `s_stop` flag the signal handler
sets. -/
structure RunState where
  reader : ReaderState
  outBytes : List Nat
  loop : Nat
  currentFrameNum : Nat
  numFrames : Nat
  sumInputSize : Nat
  sumRawSize : Nat
  sumOutputSize : Nat
  decompBrackets : Nat
  compBrackets : Nat
  stop : Bool

/-- One iteration of the `while` body of `CodecBench::run`: read a frame;
on end-of-stream or reaching the frame limit, advance the loop counter and
rewind (when more loops remain); otherwise run the enabled stages, update
the statistics and write the output frame. -/
def stepBody (cfg : RunCfg) (st : RunState) : RunState :=
  let r := VideoReader.readFrame cfg.junk st.reader
  if r.1 = false ∨ (cfg.framesToProcess ≠ 0 ∧ cfg.framesToProcess ≤ st.currentFrameNum) then
    let l := st.loop + 1
    { st with reader := if l < cfg.loopCount then VideoReader.rewind r.2 else r.2,
              currentFrameNum := 0, loop := l }
  else
    let data0 := frameBytes r.2
    let size0 := r.2.frameSize
    let d1 := if cfg.decompress then cfg.decodeFn data0 else data0
    let s1 := if cfg.decompress then cfg.decodeOutSize else size0
    let d2 := if cfg.compress then cfg.compressFn d1 else d1
    let s2 := if cfg.compress then (cfg.compressFn d1).length else s1
    { st with reader := r.2,
              currentFrameNum := st.currentFrameNum + 1,
              numFrames := st.numFrames + 1,
              sumInputSize := st.sumInputSize + size0,
              sumRawSize := st.sumRawSize + s1,
              sumOutputSize := st.sumOutputSize + s2,
              decompBrackets := st.decompBrackets + (if cfg.decompress then 1 else 0),
              compBrackets := st.compBrackets + (if cfg.compress then 1 else 0),
              outBytes := st.outBytes ++
                (if cfg.writeOut then VideoWriter.writeFrame cfg.rawout d2 s2 else []) }

/-- The `while` guard of `CodecBench::run`: `!s_stop && loop < m_loopCount`. -/
def stepGuard (cfg : RunCfg) (st : RunState) : Bool :=
  !st.stop && decide (st.loop < cfg.loopCount)

/-- `CodecBench::run`, fuel-stepped: apply the loop body while the guard
holds, for at most `n` iterations.  The run loop itself is this function
at any fuel large enough for the guard to turn false. -/
def runSteps (cfg : RunCfg) : Nat → RunState → RunState
  | 0, st => st
  | n + 1, st => if stepGuard cfg st then runSteps cfg n (stepBody cfg st) else st

/-- The run state entered from `CodecBench::run`'s local initialisation,
with a freshly opened reader. -/
def initRun (rd : ReaderState) : RunState :=
  { reader := rd, outBytes := [], loop := 0, currentFrameNum := 0, numFrames := 0,
    sumInputSize := 0, sumRawSize := 0, sumOutputSize := 0,
    decompBrackets := 0, compBrackets := 0, stop := false }

/-- Per-frame statistics contribution `(input, post-decode, output)` of one
frame `f` under configuration `cfg`, as accumulated by the run loop. -/
def frameStats (cfg : RunCfg) (f : List Nat) : Nat × Nat × Nat :=
  let s1 := if cfg.decompress then cfg.decodeOutSize else f.length
  let s2 := if cfg.compress
            then (cfg.compressFn (if cfg.decompress then cfg.decodeFn f else f)).length
            else s1
  (f.length, s1, s2)

/-- The bytes one processed frame contributes to the output file. -/
def outChunk (cfg : RunCfg) (f : List Nat) : List Nat :=
  if cfg.writeOut then
    let d1 := if cfg.decompress then cfg.decodeFn f else f
    let d2 := if cfg.compress then cfg.compressFn d1 else d1
    VideoWriter.writeFrame cfg.rawout d2 (frameStats cfg f).2.2
  else []

def statsIn (fs : List (List Nat)) : Nat := (fs.map (fun f => f.length)).sum

def statsRaw (cfg : RunCfg) (fs : List (List Nat)) : Nat :=
  (fs.map (fun f => (frameStats cfg f).2.1)).sum

def statsOut (cfg : RunCfg) (fs : List (List Nat)) : Nat :=
  (fs.map (fun f => (frameStats cfg f).2.2)).sum

def outChunks (cfg : RunCfg) (fs : List (List Nat)) : List Nat :=
  (fs.map (outChunk cfg)).flatten

/-- `CodecBench::initOutput`, reduced to its data flow: `enabled` is the
`m_compress` flag going in, `initRes` the outcome of `Compressor::init`
(`none` = the user picked "no compression", `some fmtOut` = a compressor
with output descriptor `fmtOut`), `fmtDecompressed` the decode-stage
descriptor.  Returns the final `m_compress` flag and `m_formatCompressed`. -/
def initOutput (enabled : Bool) (initRes : Option (List Nat))
    (fmtDecompressed : List Nat) : Bool × List Nat :=
  if enabled then
    match initRes with
    | some fmtOut => (true, fmtOut)
    | none => (false, fmtDecompressed)
  else (false, fmtDecompressed)

/-- `main`'s try/catch: an uncaught exception prints its message and exits
with code 1; normal completion exits with code 0. -/
def mainExit (r : Except String Unit) : Nat × Option String :=
  match r with
  | .ok _ => (0, none)
  | .error e => (1, some e)

/-- The `ArgvParser` state: the option map (`argmap`, newest binding first,
mirroring `std::map` overwrite) and the positional argument list. -/
structure ParsedArgs where
  argmap : List (String × Option String)
  arglist : List String
deriving Repr, DecidableEq

/-- The C++ test `argv[i][0] == '-'` (false for the empty string, whose
first byte is the terminating NUL). -/
def startsWithDash (s : String) : Bool :=
  match s.toList with
  | c :: _ => c = '-'
  | [] => false

def parseArgvAux : List String → Option String → ParsedArgs → ParsedArgs
  | [], _, acc => acc
  | a :: rest, lastarg, acc =>
    if startsWithDash a then
      parseArgvAux rest (some a) { acc with argmap := (a, none) :: acc.argmap }
    else
      match lastarg with
      | some la => parseArgvAux rest none { acc with argmap := (la, some a) :: acc.argmap }
      | none => parseArgvAux rest none { acc with arglist := acc.arglist ++ [a] }

/-- `ArgvParser::ArgvParser` over `argv` (element 0 is the program name). -/
def parseArgv (argv : List String) : ParsedArgs :=
  parseArgvAux (argv.drop 1) none ⟨[], []⟩

/-- `ArgvParser::hasArg`: present or not; throws when the option carries a
parameter it does not accept. -/
def hasArg (p : ParsedArgs) (arg : String) (allowParam : Bool) : Except String Bool :=
  match p.argmap.lookup arg with
  | none => .ok false
  | some v =>
    if allowParam = false ∧ v.isSome then
      .error ("ERROR: '" ++ arg ++ "' does not accept arguments")
    else .ok true

/-- `ArgvParser::getArg`: default when absent; throws when present without
a value. -/
def getArg (p : ParsedArgs) (arg : String) (defVal : Option String) :
    Except String (Option String) :=
  match p.argmap.lookup arg with
  | none => .ok defVal
  | some none => .error ("ERROR: Missing argument for option '" ++ arg ++ "'")
  | some (some v) => .ok (some v)

def atoiDigits : List Char → Nat → Nat
  | c :: rest, acc => if c.isDigit then atoiDigits rest (acc * 10 + (c.toNat - 48)) else acc
  | [], acc => acc

/-- C `atoi`: skip whitespace, optional sign, leading digits; 0 when none. -/
def atoi (s : String) : Int :=
  let cs := s.toList.dropWhile (fun c =>
    c = ' ' ∨ c = '\t' ∨ c = '\n' ∨ c = '\r' ∨ c = '\x0b' ∨ c = '\x0c')
  match cs with
  | '-' :: rest => -(atoiDigits rest 0 : Int)
  | '+' :: rest => (atoiDigits rest 0 : Int)
  | _ => (atoiDigits cs 0 : Int)

/-- The raw option values `CodecBench::initArguments` extracts before its
verification block. -/
structure RawArgs where
  rawin : Bool
  rawout : Bool
  decompress : Bool
  compress : Bool
  decompFormat : Option String
  decompWidth : Int
  decompHeight : Int
  framesToProcess : Int
  loopCount : Int
  infile : Option String
  outfile : Option String
deriving Repr, DecidableEq

/-- The parsing half of `CodecBench::initArguments` (lines 704-715), in the
source's evaluation order (note `hasArg "-nd"` / `"-nc"` are short-circuited
away under `-rawin` / `-rawout`). -/
def parsePhase (argv : List String) : Except String RawArgs := do
  let p := parseArgv argv
  let rawin ← hasArg p "-rawin" false
  let rawout ← hasArg p "-rawout" false
  let decompress ← if rawin then pure false else do
    let nd ← hasArg p "-nd" false
    pure (!nd)
  let compress ← if rawout then pure false else do
    let nc ← hasArg p "-nc" false
    pure (!nc)
  let fmt ← getArg p "-f" none
  let wStr ← getArg p "-w" (some "0")
  let hStr ← getArg p "-h" (some "0")
  let framesStr ← getArg p "-frames" (some "0")
  let loopStr ← getArg p "-loop" (some "1")
  let infile ← getArg p "-i" none
  let outfile ← getArg p "-o" none
  pure { rawin := rawin, rawout := rawout, decompress := decompress, compress := compress,
         decompFormat := fmt,
         decompWidth := atoi (wStr.getD "0"), decompHeight := atoi (hStr.getD "0"),
         framesToProcess := atoi (framesStr.getD "0"), loopCount := atoi (loopStr.getD "1"),
         infile := infile, outfile := outfile }

/-- The `-nd`-on-non-raw-input adjustment block of `initArguments`
(lines 730-747): each of `-f` / `-w` / `-h` that carries a non-default
value is warned about and reset. -/
def ndAdjust (fmt : Option String) (w h : Int) :
    (Option String × Int × Int) × List String :=
  let r1 := match fmt with
    | some _ => ((none : Option String),
        ["WARNING: ignoring -f option because -nd option was given"])
    | none => (none, [])
  let r2 := if w ≠ 0 then ((0 : Int),
        ["WARNING: ignoring -w option because -nd option was given"])
      else (w, [])
  let r3 := if h ≠ 0 then ((0 : Int),
        ["WARNING: ignoring -h option because -nd option was given"])
      else (h, [])
  ((r1.1, r2.1, r3.1), r1.2 ++ r2.2 ++ r3.2)

/-- The verification half of `initArguments` (lines 717-747).  Returns the
final argument record together with the warnings printed. -/
def verifyArgs (r : RawArgs) : Except String (RawArgs × List String) :=
  match r.infile with
  | none => .error "ERROR: No input file given (-i)!\n"
  | some _ =>
    if r.rawin then
      if r.decompFormat = none ∨ r.decompWidth = 0 ∨ r.decompHeight = 0 then
        .error "ERROR: -f, -w, -h must be given for raw inputs\n"
      else .ok (r, [])
    else if r.decompress = false then
      let a := ndAdjust r.decompFormat r.decompWidth r.decompHeight
      .ok ({ r with decompFormat := a.1.1, decompWidth := a.1.2.1,
                    decompHeight := a.1.2.2 }, a.2)
    else .ok (r, [])

/-- `CodecBench::initArguments`: usage (thrown with an empty message) when
no argument is given, then parse and verify. -/
def initArguments (argv : List String) : Except String (RawArgs × List String) :=
  if argv.length < 2 then .error "" else
  match parsePhase argv with
  | .error e => .error e
  | .ok r => verifyArgs r

theorem length_encodeU32 (n : Nat) : (encodeU32 n).length = 4 := by
  simp [encodeU32]

theorem decodeU32_encodeU32 (n : Nat) (t : List Nat) (h : n < 2 ^ 32) :
    decodeU32 (encodeU32 n ++ t) = n := by
  simp only [encodeU32, List.cons_append, List.nil_append, decodeU32]
  omega

theorem readU32_encodeU32 (junk n : Nat) (t : List Nat) (h : n < 2 ^ 32) :
    readU32 junk (encodeU32 n ++ t) = n := by
  rw [readU32, if_pos, decodeU32_encodeU32 n t h]
  simp [encodeU32]

theorem frameChunk_eq (f : List Nat) : frameChunk f = encodeU32 f.length ++ f := by
  simp [frameChunk, VideoWriter.writeFrame]

/-- A container-mode `readFrame` positioned at the encoding of frame `f`
succeeds, consumes exactly the prefix and the frame, and leaves `f` in the
front of the frame buffer. -/
theorem readFrame_cons (junk : Nat) (s : ReaderState) (f rest : List Nat)
    (hraw : s.raw = false) (hg : s.good = true)
    (hrem : s.content.drop s.pos = frameChunk f ++ rest) (hf : f.length < 2 ^ 32) :
    VideoReader.readFrame junk s =
      (true, { s with pos := s.pos + (4 + f.length), good := true,
                      frameBuf := f ++ s.frameBuf.drop f.length,
                      frameSize := f.length }) := by
  rw [frameChunk_eq, List.append_assoc] at hrem
  have hlen : (s.content.drop s.pos).length = 4 + (f.length + rest.length) := by
    rw [hrem]; simp [length_encodeU32]
  have hmin : min 4 (s.content.drop s.pos).length = 4 := by omega
  have hsize : readU32 junk (s.content.drop s.pos) = f.length := by
    rw [hrem, readU32_encodeU32 _ _ _ (by simpa using hf)]
  have hrem2 : s.content.drop (s.pos + 4) = f ++ rest := by
    rw [← List.drop_drop, hrem, List.drop_left' (length_encodeU32 f.length)]
  have hbufd : (if s.frameBuf.length < f.length
      then s.frameBuf ++ List.replicate (f.length - s.frameBuf.length) 0
      else s.frameBuf).drop f.length = s.frameBuf.drop f.length := by
    by_cases h : s.frameBuf.length < f.length
    · rw [if_pos h, List.drop_eq_nil_of_le (by simp; omega),
        List.drop_eq_nil_of_le (by omega)]
    · rw [if_neg h]
  unfold VideoReader.readFrame
  rw [hg, hraw]
  simp only [Bool.true_eq_false, Bool.false_eq_true, if_false, if_true, hsize, hmin, hrem2]
  have hd4 : 4 ≤ (s.content.drop s.pos).length := by omega
  have hokd : f.length ≤ (f ++ rest).length := by simp
  have hgot : f.length ⊓ (f ++ rest).length = f.length := by simp
  rw [if_pos (decide_eq_true hd4)]
  simp only [hgot, List.take_left, hbufd, decide_eq_true hokd, Prod.mk.injEq,
    ReaderState.mk.injEq]
  and_intros <;> first | trivial | omega

/-- A container-mode `readFrame` whose 4-byte length prefix cannot be fully
read: the stream fails and `m_frameSize` becomes the indeterminate `junk`,
which still drives the buffer resize. -/
theorem readFrame_short (junk : Nat) (s : ReaderState)
    (hraw : s.raw = false) (hg : s.good = true)
    (hshort : (s.content.drop s.pos).length < 4) :
    VideoReader.readFrame junk s =
      (false, { s with pos := s.pos + (s.content.drop s.pos).length, good := false,
                       frameBuf := if s.frameBuf.length < junk
                                   then s.frameBuf ++ List.replicate (junk - s.frameBuf.length) 0
                                   else s.frameBuf,
                       frameSize := junk }) := by
  unfold VideoReader.readFrame
  rw [hg, hraw]
  have hld : (s.content.drop s.pos).length = s.content.length - s.pos := by simp
  have hju : readU32 junk (s.content.drop s.pos) = junk := by
    rw [readU32, if_neg (by omega)]
  have hmin : min 4 (s.content.drop s.pos).length = (s.content.drop s.pos).length := by omega
  simp only [Bool.true_eq_false, Bool.false_eq_true, if_false, if_true, hju, hmin]
  rw [if_neg (by simp only [decide_eq_true_eq, List.length_drop]; omega)]

/-- A container-mode `readFrame` whose prefix reads fine but whose declared
frame size exceeds the remaining bytes returns end-of-stream. -/
theorem readFrame_trunc (junk : Nat) (s : ReaderState)
    (hraw : s.raw = false) (hg : s.good = true)
    (h4 : 4 ≤ (s.content.drop s.pos).length)
    (hdata : (s.content.drop s.pos).length < 4 + decodeU32 (s.content.drop s.pos)) :
    (VideoReader.readFrame junk s).1 = false := by
  unfold VideoReader.readFrame
  rw [hg, hraw]
  have hru : readU32 junk (s.content.drop s.pos) = decodeU32 (s.content.drop s.pos) := by
    rw [readU32, if_pos h4]
  have hld : (s.content.drop s.pos).length = s.content.length - s.pos := by simp
  have hmin : min 4 (s.content.drop s.pos).length = 4 := by omega
  simp only [Bool.true_eq_false, Bool.false_eq_true, if_false, if_true, hru, hmin]
  rw [if_pos (decide_eq_true h4)]
  dsimp only
  exact decide_eq_false (by simp only [List.length_drop]; omega)

/-- Raw mode: when fewer bytes than the fixed frame size `biSizeImage`
remain, the data read fails and `readFrame` returns false. -/
theorem readFrame_raw_trunc (junk : Nat) (s : ReaderState)
    (hraw : s.raw = true) (hg : s.good = true)
    (hdata : (s.content.drop s.pos).length < s.sizeImage) :
    (VideoReader.readFrame junk s).1 = false := by
  unfold VideoReader.readFrame
  rw [hg, hraw]
  simp only [Bool.true_eq_false, if_false, if_true]
  exact decide_eq_false (not_le.mpr hdata)

/-- `readFrame` never touches the file content or the recorded header
offset, format bytes, mode, or cached descriptor size. -/
theorem readFrame_inv (junk : Nat) (s : ReaderState) :
    (VideoReader.readFrame junk s).2.content = s.content ∧
    (VideoReader.readFrame junk s).2.raw = s.raw ∧
    (VideoReader.readFrame junk s).2.headerSize = s.headerSize ∧
    (VideoReader.readFrame junk s).2.sizeImage = s.sizeImage ∧
    (VideoReader.readFrame junk s).2.fmtBytes = s.fmtBytes := by
  unfold VideoReader.readFrame
  dsimp only
  split_ifs <;> simp

theorem readN_inv (junk k : Nat) (s : ReaderState) :
    (readN junk k s).content = s.content ∧ (readN junk k s).raw = s.raw ∧
    (readN junk k s).headerSize = s.headerSize ∧
    (readN junk k s).sizeImage = s.sizeImage := by
  induction k generalizing s with
  | zero => exact ⟨rfl, rfl, rfl, rfl⟩
  | succ k ih =>
    have h1 := readFrame_inv junk s
    have h2 := ih (VideoReader.readFrame junk s).2
    simp only [readN]
    exact ⟨h2.1.trans h1.1, h2.2.1.trans h1.2.1, h2.2.2.1.trans h1.2.2.1,
      h2.2.2.2.trans h1.2.2.2.1⟩

theorem take_of_take_append (size : Nat) (l x : List Nat) (h : size ≤ l.length) :
    (l.take size ++ x).take size = l.take size :=
  List.take_left' (by simp [h])

/-- The observable outcome of `readFrame` (success flag, frame size, frame
bytes on success) depends only on the stream content, position, status and
descriptor size — not on the leftover frame buffer. -/
theorem readFrame_ext (junk : Nat) (s t : ReaderState)
    (hgt : s.good = true)
    (hc : s.content = t.content) (hp : s.pos = t.pos) (hg : s.good = t.good)
    (hr : s.raw = t.raw) (hsi : s.sizeImage = t.sizeImage) :
    (VideoReader.readFrame junk s).1 = (VideoReader.readFrame junk t).1 ∧
    (VideoReader.readFrame junk s).2.frameSize = (VideoReader.readFrame junk t).2.frameSize ∧
    ((VideoReader.readFrame junk t).1 = true →
      frameBytes (VideoReader.readFrame junk s).2 = frameBytes (VideoReader.readFrame junk t).2) := by
  obtain ⟨c, p, g, r, fb, si, hd, buf, fs⟩ := s
  obtain ⟨c2, p2, g2, r2, fb2, si2, hd2, buf2, fs2⟩ := t
  simp only at hgt hc hp hg hr hsi
  subst hgt hc hp hr hsi
  rw [← hg]
  refine ⟨?_, ?_, ?_⟩
  · unfold VideoReader.readFrame
    dsimp only
    simp only [Bool.true_eq_false, if_false]
    split_ifs <;> rfl
  · unfold VideoReader.readFrame
    dsimp only
    simp only [Bool.true_eq_false, if_false]
    split_ifs <;> rfl
  · unfold VideoReader.readFrame frameBytes
    dsimp only
    simp only [Bool.true_eq_false, if_false]
    split_ifs <;> intro hs <;>
      simp only [decide_eq_true_eq, Bool.false_eq_true] at hs <;>
      rw [take_of_take_append _ _ _ hs, take_of_take_append _ _ _ hs]

theorem writer_header (fmt : List Nat) (hfmt : decodeU32 fmt = fmt.length) :
    VideoWriter.openFile (some fmt) = encodeU32 0xABCDEF01 ++ (encodeU32 fmt.length ++ fmt) := by
  simp [VideoWriter.openFile, hfmt, List.take_length]

/-- Opening the stream a container-mode writer produced (with any frame data
appended) succeeds, recovers the descriptor bytes verbatim, and parks the
reader at the recorded header offset `8 + formatSize`. -/
theorem openFile_container (junk : Nat) (fmt tail : List Nat)
    (hfmt : decodeU32 fmt = fmt.length) (hfb : fmt.length < 2 ^ 32) :
    VideoReader.openFile true junk (VideoWriter.openFile (some fmt) ++ tail) =
      Except.ok { content := VideoWriter.openFile (some fmt) ++ tail,
                  pos := 8 + fmt.length, good := true, raw := false,
                  fmtBytes := fmt, sizeImage := bihSizeImage fmt,
                  headerSize := 8 + fmt.length, frameBuf := [], frameSize := 0 } := by
  have hw : VideoWriter.openFile (some fmt) ++ tail
      = encodeU32 0xABCDEF01 ++ (encodeU32 fmt.length ++ (fmt ++ tail)) := by
    rw [writer_header fmt hfmt, List.append_assoc, List.append_assoc]
  set C := VideoWriter.openFile (some fmt) ++ tail with hC
  have hmagic : readU32 junk C = 0xABCDEF01 := by
    rw [hw]; exact readU32_encodeU32 _ _ _ (by norm_num)
  have hlenC : C.length = 8 + (fmt.length + tail.length) := by
    rw [hw]; simp [length_encodeU32]; omega
  have hd4 : C.drop 4 = encodeU32 fmt.length ++ (fmt ++ tail) := by
    rw [hw, List.drop_left' (length_encodeU32 _)]
  have hfs : readU32 junk (C.drop 4) = fmt.length := by
    rw [hd4]; exact readU32_encodeU32 _ _ _ hfb
  have hd8 : C.drop 8 = fmt ++ tail := by
    rw [show (8 : Nat) = 4 + 4 from rfl, ← List.drop_drop, hd4,
      List.drop_left' (length_encodeU32 _)]
  have hlen4 : (C.drop 4).length = 4 + (fmt.length + tail.length) := by
    rw [hd4]; simp [length_encodeU32]; try omega
  have hg1 : decide (4 ≤ C.length) = true := decide_eq_true (by omega)
  have hg2 : decide (4 ≤ (C.drop 4).length) = true := decide_eq_true (by omega)
  have hmin1 : min 4 C.length = 4 := by omega
  have hmin2 : min 4 (C.drop 4).length = 4 := by omega
  have hmin3 : min fmt.length (fmt ++ tail).length = fmt.length := by simp
  have hg3 : decide (fmt.length ≤ (fmt ++ tail).length) = true := decide_eq_true (by simp)
  unfold VideoReader.openFile
  dsimp only
  rw [if_neg (by simp), if_neg (by simp [hmagic])]
  simp only [hg1, hmin1, hfs, hg2, hmin2, hd8, hmin3, hg3, if_true, Bool.true_and,
    List.take_left, Bool.and_self]
  simp only [Except.ok.injEq, ReaderState.mk.injEq]
  and_intros <;> first | trivial | omega | simp

theorem encFrames_cons (f : List Nat) (fs : List (List Nat)) :
    encFrames (f :: fs) = frameChunk f ++ encFrames fs := by
  simp [encFrames]

theorem length_frameChunk (f : List Nat) : (frameChunk f).length = 4 + f.length := by
  simp [frameChunk_eq, length_encodeU32]

/-- Reading back every frame of a well-formed container suffix reproduces
the frames, bytes and sizes alike. -/
theorem readFrames_all (junk : Nat) (fs : List (List Nat)) (s : ReaderState)
    (hraw : s.raw = false) (hg : s.good = true)
    (hrem : s.content.drop s.pos = encFrames fs)
    (hb : ∀ f ∈ fs, f.length < 2 ^ 32) :
    (readFrames junk fs.length s).1 = fs := by
  induction fs generalizing s with
  | nil => simp [readFrames]
  | cons f rest ih =>
    rw [encFrames_cons] at hrem
    have hc := readFrame_cons junk s f (encFrames rest) hraw hg hrem (hb f (by simp))
    have hrem2 : (s.content.drop (s.pos + (4 + f.length))) = encFrames rest := by
      rw [← List.drop_drop, hrem, ← length_frameChunk f, List.drop_left]
    simp only [List.length_cons, readFrames, hc, if_true, frameBytes]
    have hrec := ih
      { s with pos := s.pos + (4 + f.length), good := true,
               frameBuf := f ++ List.drop f.length s.frameBuf, frameSize := f.length }
      hraw rfl hrem2 (fun g hgm => hb g (by simp [hgm]))
    rw [List.take_left, hrec]

/-- C1: Container round-trip — for every format descriptor and every frame
sequence, writing through `VideoWriter::open` (container mode) plus one
`writeFrame` per frame and reading back through `VideoReader::open` plus
`readFrame` per frame recovers the same frames with identical bytes and
sizes and the same format-descriptor byte content.  The hypotheses are the
writer-side well-formedness the tool maintains: the descriptor declares its
own byte length (`BitmapInfoHeader` keeps `biSize = buf.size()`), and all
u32 fields fit 32 bits. -/
theorem container_roundtrip (junk : Nat) (fmt : List Nat) (frames : List (List Nat))
    (hfmt : decodeU32 fmt = fmt.length) (hfb : fmt.length < 2 ^ 32)
    (hframes : ∀ f ∈ frames, f.length < 2 ^ 32) :
    ∃ s, VideoReader.openFile true junk (containerBytes fmt frames) = Except.ok s ∧
      s.fmtBytes = fmt ∧
      (readFrames junk frames.length s).1 = frames := by
  refine ⟨_, openFile_container junk fmt (encFrames frames) hfmt hfb, rfl, ?_⟩
  apply readFrames_all junk frames _ rfl rfl ?_ hframes
  have hwl : (VideoWriter.openFile (some fmt)).length = 8 + fmt.length := by
    rw [writer_header fmt hfmt]
    simp [length_encodeU32]
    omega
  exact List.drop_left' hwl

/-- Witness for C1 at a concrete 12-byte descriptor and two frames. -/
theorem container_roundtrip_witness :
    ∃ s, VideoReader.openFile true 0
        (containerBytes (encodeU32 12 ++ [1, 2, 3, 4, 5, 6, 7, 8]) [[9, 9], [8]]) =
        Except.ok s ∧
      s.fmtBytes = encodeU32 12 ++ [1, 2, 3, 4, 5, 6, 7, 8] ∧
      (readFrames 0 [[9, 9], [8]].length s).1 = [[9, 9], [8]] :=
  container_roundtrip 0 (encodeU32 12 ++ [1, 2, 3, 4, 5, 6, 7, 8]) [[9, 9], [8]]
    (by decide) (by decide) (by decide)

set_option maxHeartbeats 1000000 in
/-- `biSizeImage` is invariant under flipping the sign of the height, for
every format name (the formulas all use `abs(biHeight)`). -/
theorem GetDecompFormat_neg_height (name : String) (w h : Int) :
    (GetDecompFormat name w (-h)).map BIH.biSizeImage =
      (GetDecompFormat name w h).map BIH.biSizeImage := by
  unfold GetDecompFormat
  by_cases hc1 : name = "RGB24" ∨ name = "bgr24"
  · rw [if_pos hc1, if_pos hc1]
    simp [Except.map, abs_neg]
  rw [if_neg hc1, if_neg hc1]
  by_cases hc2 : name = "RGB32" ∨ name = "bgr32"
  · rw [if_pos hc2, if_pos hc2]
    simp [Except.map, abs_neg]
  rw [if_neg hc2, if_neg hc2]
  by_cases hc3 : name = "BGRA"
  · rw [if_pos hc3, if_pos hc3]
    simp [Except.map, abs_neg]
  rw [if_neg hc3, if_neg hc3]
  by_cases hc4 : name = "AYUV"
  · rw [if_pos hc4, if_pos hc4]
    simp [Except.map, abs_neg]
  rw [if_neg hc4, if_neg hc4]
  by_cases hc5 : name = "YUY2"
  · rw [if_pos hc5, if_pos hc5]
    simp [Except.map, abs_neg]
  rw [if_neg hc5, if_neg hc5]
  by_cases hc6 : name = "UYVY"
  · rw [if_pos hc6, if_pos hc6]
    simp [Except.map, abs_neg]
  rw [if_neg hc6, if_neg hc6]
  by_cases hc7 : name = "YV12"
  · rw [if_pos hc7, if_pos hc7]
    simp [Except.map, abs_neg]
  rw [if_neg hc7, if_neg hc7]
  by_cases hc8 : name = "YV24"
  · rw [if_pos hc8, if_pos hc8]
    simp [Except.map, abs_neg]
  rw [if_neg hc8, if_neg hc8]
  by_cases hc9 : name = "Y8"
  · rw [if_pos hc9, if_pos hc9]
    simp [Except.map, abs_neg]
  rw [if_neg hc9, if_neg hc9]
  by_cases hc10 : name = "b64a"
  · rw [if_pos hc10, if_pos hc10]
    simp [Except.map, abs_neg]
  rw [if_neg hc10, if_neg hc10]
  by_cases hc11 : name = "b48r"
  · rw [if_pos hc11, if_pos hc11]
    simp [Except.map, abs_neg]
  rw [if_neg hc11, if_neg hc11]
  by_cases hc12 : name = "v210"
  · rw [if_pos hc12, if_pos hc12]
    simp [Except.map, abs_neg]
  rw [if_neg hc12, if_neg hc12]
  by_cases hc13 : name = "r210"
  · rw [if_pos hc13, if_pos hc13]
    simp [Except.map, abs_neg]
  rw [if_neg hc13, if_neg hc13]

/-- C2: For every supported format name, positive width and nonzero height,
`GetDecompFormat` computes `biSizeImage` by the format's canonical formula
and the sign of the height never affects it; for RGB24 the size is
`align4(w*3) * |h|` (the unique multiple of 4 in `[3w, 3w+4)` per row),
v210 expands each 48-pixel macroblock to 128 bytes (`⌈w/48⌉ * 128 * |h|`)
and r210 each 64-pixel macroblock to 256 bytes (`⌈w/64⌉ * 256 * |h|`). -/
theorem format_size_formulas (w h : Int) (hw : 0 < w) (_hh : h ≠ 0) :
    (∀ name : String, ∀ bih bih' : BIH, GetDecompFormat name w h = Except.ok bih →
        GetDecompFormat name w (-h) = Except.ok bih' →
        bih'.biSizeImage = bih.biSizeImage) ∧
    (∀ bih : BIH, GetDecompFormat "RGB24" w h = Except.ok bih →
        ∃ r : Int, bih.biSizeImage = r * |h| ∧ 4 ∣ r ∧ w * 3 ≤ r ∧ r < w * 3 + 4) ∧
    (∀ bih : BIH, GetDecompFormat "v210" w h = Except.ok bih →
        bih.biSizeImage = (if (48 : Int) ∣ w then w / 48 else w / 48 + 1) * 128 * |h|) ∧
    (∀ bih : BIH, GetDecompFormat "r210" w h = Except.ok bih →
        bih.biSizeImage = (if (64 : Int) ∣ w then w / 64 else w / 64 + 1) * 256 * |h|) := by
  refine ⟨?_, ?_, ?_, ?_⟩
  · intro name bih bih' h1 h2
    have hmap := GetDecompFormat_neg_height name w h
    rw [h1, h2] at hmap
    simpa [Except.map] using hmap
  · intro bih h1
    have heq : GetDecompFormat "RGB24" w h =
        Except.ok ⟨w, h, 24, 0, align4 (w * 3) * |h|⟩ := by
      unfold GetDecompFormat
      rw [if_pos (Or.inl rfl)]
    rw [heq] at h1
    injection h1 with h1
    subst h1
    refine ⟨align4 (w * 3), rfl, ⟨(w * 3 + 3).tdiv 4, mul_comm _ _⟩, ?_, ?_⟩ <;>
      · rw [align4, Int.tdiv_eq_ediv (by omega) (by norm_num)]
        omega
  · intro bih h1
    have heq : GetDecompFormat "v210" w h =
        Except.ok ⟨w, h, 20, mmioFOURCC 'v' '2' '1' '0', ((w + 47).tdiv 48) * 128 * |h|⟩ := by
      unfold GetDecompFormat
      rw [if_neg (by decide), if_neg (by decide), if_neg (by decide), if_neg (by decide),
        if_neg (by decide), if_neg (by decide), if_neg (by decide), if_neg (by decide),
        if_neg (by decide), if_neg (by decide), if_neg (by decide), if_pos rfl]
    rw [heq] at h1
    injection h1 with h1
    subst h1
    have hdiv : (w + 47).tdiv 48 = (if (48 : Int) ∣ w then w / 48 else w / 48 + 1) := by
      rw [Int.tdiv_eq_ediv (by omega) (by norm_num)]
      split <;> omega
    show ((w + 47).tdiv 48) * 128 * |h| = _
    rw [hdiv]
  · intro bih h1
    have heq : GetDecompFormat "r210" w h =
        Except.ok ⟨w, h, 30, mmioFOURCC 'r' '2' '1' '0', ((w + 63).tdiv 64) * 256 * |h|⟩ := by
      unfold GetDecompFormat
      rw [if_neg (by decide), if_neg (by decide), if_neg (by decide), if_neg (by decide),
        if_neg (by decide), if_neg (by decide), if_neg (by decide), if_neg (by decide),
        if_neg (by decide), if_neg (by decide), if_neg (by decide), if_neg (by decide),
        if_pos rfl]
    rw [heq] at h1
    injection h1 with h1
    subst h1
    have hdiv : (w + 63).tdiv 64 = (if (64 : Int) ∣ w then w / 64 else w / 64 + 1) := by
      rw [Int.tdiv_eq_ediv (by omega) (by norm_num)]
      split <;> omega
    show ((w + 63).tdiv 64) * 256 * |h| = _
    rw [hdiv]

/-- Witness for C2 at width 4, height 2: RGB24 gives `align4(12) * 2 = 24`
bytes, and the macroblock formulas hold at the same point. -/
theorem format_size_formulas_witness :
    ((GetDecompFormat "RGB24" 4 2).toOption.map BIH.biSizeImage = some 24) ∧
    (∀ bih : BIH, GetDecompFormat "v210" 4 2 = Except.ok bih →
        bih.biSizeImage = (if (48 : Int) ∣ 4 then 4 / 48 else 4 / 48 + 1) * 128 * |(2 : Int)|) :=
  ⟨by decide, (format_size_formulas 4 2 (by decide) (by decide)).2.2.1⟩

/-- C8: `GetDecompFormat` succeeds exactly on the enumerated format names;
outside the set it fails with the unsupported-format error, and
`VideoReader::openRaw` propagates that failure unchanged (the resolver runs
before the file is even opened). -/
theorem unsupported_format_rejected (name : String) (w h : Int) :
    (name ∈ supportedFormats → ∃ bih, GetDecompFormat name w h = Except.ok bih) ∧
    (name ∉ supportedFormats →
      GetDecompFormat name w h =
        Except.error ("Invalid requested decompressed format: " ++ name) ∧
      ∀ fileOk content, VideoReader.openRaw fileOk name w h content =
        Except.error ("Invalid requested decompressed format: " ++ name)) := by
  constructor
  · intro hm
    fin_cases hm
    · exact ⟨_, by unfold GetDecompFormat; rw [if_pos (Or.inl rfl)]⟩
    · exact ⟨_, by unfold GetDecompFormat; rw [if_pos (Or.inr rfl)]⟩
    · exact ⟨_, by unfold GetDecompFormat; rw [if_neg (by decide), if_pos (Or.inl rfl)]⟩
    · exact ⟨_, by unfold GetDecompFormat; rw [if_neg (by decide), if_pos (Or.inr rfl)]⟩
    · exact ⟨_, by unfold GetDecompFormat; rw [if_neg (by decide), if_neg (by decide), if_pos (rfl)]⟩
    · exact ⟨_, by unfold GetDecompFormat; rw [if_neg (by decide), if_neg (by decide), if_neg (by decide), if_pos (rfl)]⟩
    · exact ⟨_, by unfold GetDecompFormat; rw [if_neg (by decide), if_neg (by decide), if_neg (by decide), if_neg (by decide), if_pos (rfl)]⟩
    · exact ⟨_, by unfold GetDecompFormat; rw [if_neg (by decide), if_neg (by decide), if_neg (by decide), if_neg (by decide), if_neg (by decide), if_pos (rfl)]⟩
    · exact ⟨_, by unfold GetDecompFormat; rw [if_neg (by decide), if_neg (by decide), if_neg (by decide), if_neg (by decide), if_neg (by decide), if_neg (by decide), if_pos (rfl)]⟩
    · exact ⟨_, by unfold GetDecompFormat; rw [if_neg (by decide), if_neg (by decide), if_neg (by decide), if_neg (by decide), if_neg (by decide), if_neg (by decide), if_neg (by decide), if_pos (rfl)]⟩
    · exact ⟨_, by unfold GetDecompFormat; rw [if_neg (by decide), if_neg (by decide), if_neg (by decide), if_neg (by decide), if_neg (by decide), if_neg (by decide), if_neg (by decide), if_neg (by decide), if_pos (rfl)]⟩
    · exact ⟨_, by unfold GetDecompFormat; rw [if_neg (by decide), if_neg (by decide), if_neg (by decide), if_neg (by decide), if_neg (by decide), if_neg (by decide), if_neg (by decide), if_neg (by decide), if_neg (by decide), if_pos (rfl)]⟩
    · exact ⟨_, by unfold GetDecompFormat; rw [if_neg (by decide), if_neg (by decide), if_neg (by decide), if_neg (by decide), if_neg (by decide), if_neg (by decide), if_neg (by decide), if_neg (by decide), if_neg (by decide), if_neg (by decide), if_pos (rfl)]⟩
    · exact ⟨_, by unfold GetDecompFormat; rw [if_neg (by decide), if_neg (by decide), if_neg (by decide), if_neg (by decide), if_neg (by decide), if_neg (by decide), if_neg (by decide), if_neg (by decide), if_neg (by decide), if_neg (by decide), if_neg (by decide), if_pos (rfl)]⟩
    · exact ⟨_, by unfold GetDecompFormat; rw [if_neg (by decide), if_neg (by decide), if_neg (by decide), if_neg (by decide), if_neg (by decide), if_neg (by decide), if_neg (by decide), if_neg (by decide), if_neg (by decide), if_neg (by decide), if_neg (by decide), if_neg (by decide), if_pos (rfl)]⟩
  · intro hm
    simp only [supportedFormats, List.mem_cons, List.not_mem_nil, or_false] at hm
    push_neg at hm
    obtain ⟨n1, n2, n3, n4, n5, n6, n7, n8, n9, n10, n11, n12, n13, n14, n15⟩ := hm
    have herr : GetDecompFormat name w h =
        Except.error ("Invalid requested decompressed format: " ++ name) := by
      unfold GetDecompFormat
      rw [if_neg (not_or.mpr ⟨n1, n2⟩), if_neg (not_or.mpr ⟨n3, n4⟩), if_neg n5,
        if_neg n6, if_neg n7, if_neg n8, if_neg n9, if_neg n10, if_neg n11,
        if_neg n12, if_neg n13, if_neg n14, if_neg n15]
    refine ⟨herr, fun fileOk content => ?_⟩
    unfold VideoReader.openRaw
    rw [herr]

/-- Witness for C8: "RGB24" resolves; "nope" is rejected by the resolver and
by `openRaw`. -/
theorem unsupported_format_rejected_witness :
    (∃ bih, GetDecompFormat "RGB24" 1 1 = Except.ok bih) ∧
    VideoReader.openRaw true "nope" 1 1 [] =
      Except.error ("Invalid requested decompressed format: " ++ "nope") :=
  ⟨(unsupported_format_rejected "RGB24" 1 1).1 (by decide),
   ((unsupported_format_rejected "nope" 1 1).2 (by decide)).2 true []⟩

/-- C9 counterexample: at a call position with no bytes remaining (stream
good, container mode), `readFrame` resizes its internal frame buffer using
the indeterminate value left by the failed 4-byte prefix read — the same
program state yields buffer size 7 or 9 depending on that value, so the
size acted on was never read from the stream (it does still report
end-of-stream). -/
theorem readFrame_junk_resize_cex :
    (VideoReader.readFrame 7 ⟨[], 0, true, false, [], 0, 0, [], 0⟩).2.frameBuf.length = 7 ∧
    (VideoReader.readFrame 9 ⟨[], 0, true, false, [], 0, 0, [], 0⟩).2.frameBuf.length = 9 ∧
    (VideoReader.readFrame 7 ⟨[], 0, true, false, [], 0, 0, [], 0⟩).1 = false := by
  decide

/-- C9 amended: when the 4-byte length prefix cannot be fully read,
`readFrame` returns end-of-stream and never reads frame bytes from an
unread size (the subsequent data read is a no-op on the failed stream:
only the short prefix itself is consumed) — but `m_frameSize` takes the
indeterminate value and the internal buffer is grown to it. -/
theorem readFrame_incomplete_size (junk : Nat) (s : ReaderState)
    (hraw : s.raw = false) (hg : s.good = true)
    (hshort : (s.content.drop s.pos).length < 4) :
    (VideoReader.readFrame junk s).1 = false ∧
    (VideoReader.readFrame junk s).2.frameSize = junk ∧
    (VideoReader.readFrame junk s).2.frameBuf.length = max s.frameBuf.length junk ∧
    (VideoReader.readFrame junk s).2.pos = s.pos + (s.content.drop s.pos).length := by
  rw [readFrame_short junk s hraw hg hshort]
  refine ⟨rfl, rfl, ?_, rfl⟩
  dsimp only
  split <;> simp <;> omega

/-- Witness for the amended C9 at a 2-byte trailing fragment. -/
theorem readFrame_incomplete_size_witness :
    (VideoReader.readFrame 5 ⟨[1, 2], 0, true, false, [], 0, 0, [], 0⟩).1 = false ∧
    (VideoReader.readFrame 5 ⟨[1, 2], 0, true, false, [], 0, 0, [], 0⟩).2.frameSize = 5 :=
  ⟨(readFrame_incomplete_size 5 ⟨[1, 2], 0, true, false, [], 0, 0, [], 0⟩ rfl rfl (by decide)).1,
   (readFrame_incomplete_size 5 ⟨[1, 2], 0, true, false, [], 0, 0, [], 0⟩ rfl rfl (by decide)).2.1⟩

/-- C3: Truncated trailing frame is end-of-stream, not an error: for every
stream in either mode, whenever the remaining bytes do not hold one
complete frame — in container mode the 4-byte length prefix itself is
short or fewer bytes than the declared frame size remain, in raw mode
fewer bytes than the fixed frame size `biSizeImage` remain — `readFrame`
returns the end-of-stream signal `false`; this code path raises nothing
(the model is total and the C++ throws only from `open`/`openRaw`). -/
theorem truncated_frame_eos (junk : Nat) (s : ReaderState)
    (hg : s.good = true)
    (h : if s.raw then (s.content.drop s.pos).length < s.sizeImage
         else (s.content.drop s.pos).length < 4 ∨
              (s.content.drop s.pos).length < 4 + decodeU32 (s.content.drop s.pos)) :
    (VideoReader.readFrame junk s).1 = false := by
  by_cases hraw : s.raw = true
  · rw [if_pos hraw] at h
    exact readFrame_raw_trunc junk s hraw hg h
  · have hraw2 : s.raw = false := by
      cases hb : s.raw
      · rfl
      · exact absurd hb hraw
    rw [if_neg hraw] at h
    rcases Nat.lt_or_ge (s.content.drop s.pos).length 4 with h4 | h4
    · rw [readFrame_short junk s hraw2 hg h4]
    · exact readFrame_trunc junk s hraw2 hg h4 (h.resolve_left (by omega))

/-- Witness for C3: first, the spec's concrete container scenario — magic
`0xABCDEF01`, a 40-byte format block declaring `biSizeImage = 100`, one
frame declaring size 100 with only 50 bytes before end-of-file; second, a
raw-mode stream with frame size 24 but only 10 bytes remaining.  In both,
`readFrame` reports end-of-stream. -/
theorem truncated_frame_eos_witness :
    (∃ s, VideoReader.openFile true 0
        (encodeU32 0xABCDEF01 ++ encodeU32 40 ++
          (encodeU32 40 ++ List.replicate 16 0 ++ encodeU32 100 ++ List.replicate 16 0) ++
          (encodeU32 100 ++ List.replicate 50 0)) = Except.ok s ∧
      (VideoReader.readFrame 0 s).1 = false) ∧
    (VideoReader.readFrame 0
        (⟨List.replicate 10 0, 0, true, true, [], 24, 0, [], 0⟩ : ReaderState)).1 = false := by
  refine ⟨⟨_, rfl, truncated_frame_eos 0 _ (by decide) (by decide)⟩,
          truncated_frame_eos 0 _ (by decide) (by decide)⟩

/-- C5: Rewind property.  `open` records the header offset
`8 + formatSize` (= 8 plus the format-block byte length) and `openRaw`
records offset 0 with the reader parked there; `rewind` only clears the
stream state and seeks to the recorded offset — no re-parsing — and after
reading any number `k` of frames and rewinding, the next `readFrame`
returns the same outcome, frame size and frame bytes as the very first
`readFrame` after open, in container and raw modes alike. -/
theorem rewind_replay (junk j k : Nat) (st : ReaderState)
    (hg : st.good = true) (hpos : st.pos = st.headerSize) :
    (∀ fileOk jo content s, VideoReader.openFile fileOk jo content = Except.ok s →
        s.headerSize = 8 + s.fmtBytes.length) ∧
    (∀ fileOk fm w hh content s, VideoReader.openRaw fileOk fm w hh content = Except.ok s →
        s.headerSize = 0 ∧ s.pos = 0 ∧ s.good = true) ∧
    (∀ s : ReaderState, VideoReader.rewind s = { s with good := true, pos := s.headerSize }) ∧
    ((VideoReader.readFrame j (VideoReader.rewind (readN junk k st))).1 =
        (VideoReader.readFrame j st).1 ∧
     (VideoReader.readFrame j (VideoReader.rewind (readN junk k st))).2.frameSize =
        (VideoReader.readFrame j st).2.frameSize ∧
     ((VideoReader.readFrame j st).1 = true →
        frameBytes (VideoReader.readFrame j (VideoReader.rewind (readN junk k st))).2 =
          frameBytes (VideoReader.readFrame j st).2)) := by
  refine ⟨?_, ?_, fun s => rfl, ?_⟩
  · intro fileOk jo content s hopen
    unfold VideoReader.openFile at hopen
    dsimp only at hopen
    split_ifs at hopen <;>
      first
        | exact Except.noConfusion hopen
        | (injection hopen with hs
           subst hs
           dsimp only
           simp only [List.length_append, List.length_replicate, List.length_take,
             List.length_nil, List.nil_append]
           omega)
  · intro fileOk fm w hh content s hopen
    unfold VideoReader.openRaw at hopen
    rcases hfm : GetDecompFormat fm w hh with e | bih <;> rw [hfm] at hopen <;>
      dsimp only at hopen
    all_goals try split_ifs at hopen
    all_goals
      first
        | exact Except.noConfusion hopen
        | (injection hopen with hs
           subst hs
           exact ⟨rfl, rfl, rfl⟩)
  · have hinv := readN_inv junk k st
    exact readFrame_ext j (VideoReader.rewind (readN junk k st)) st rfl
      hinv.1
      (by simp only [VideoReader.rewind, hinv.2.2.1, hpos])
      (by simp only [VideoReader.rewind, hg])
      hinv.2.1
      hinv.2.2.2

/-- Witness for C5: a 3-byte raw stream with 1-byte frames, read twice then
rewound. -/
theorem rewind_replay_witness :
    (VideoReader.readFrame 0 (VideoReader.rewind
        (readN 0 2 ⟨[1, 2, 3], 0, true, true, [], 1, 0, [], 0⟩))).1 =
      (VideoReader.readFrame 0 (⟨[1, 2, 3], 0, true, true, [], 1, 0, [], 0⟩ : ReaderState)).1 ∧
    ((VideoReader.readFrame 0 (⟨[1, 2, 3], 0, true, true, [], 1, 0, [], 0⟩ : ReaderState)).1 = true →
      frameBytes (VideoReader.readFrame 0 (VideoReader.rewind
          (readN 0 2 ⟨[1, 2, 3], 0, true, true, [], 1, 0, [], 0⟩))).2 =
        frameBytes (VideoReader.readFrame 0
          (⟨[1, 2, 3], 0, true, true, [], 1, 0, [], 0⟩ : ReaderState)).2) :=
  ⟨(rewind_replay 0 0 2 ⟨[1, 2, 3], 0, true, true, [], 1, 0, [], 0⟩ rfl rfl).2.2.2.1,
   (rewind_replay 0 0 2 ⟨[1, 2, 3], 0, true, true, [], 1, 0, [], 0⟩ rfl rfl).2.2.2.2.2⟩

theorem statsIn_nil : statsIn [] = 0 := rfl

theorem statsIn_cons (f : List Nat) (fs : List (List Nat)) :
    statsIn (f :: fs) = f.length + statsIn fs := by simp [statsIn]

theorem statsRaw_cons (cfg : RunCfg) (f : List Nat) (fs : List (List Nat)) :
    statsRaw cfg (f :: fs) = (frameStats cfg f).2.1 + statsRaw cfg fs := by simp [statsRaw]

theorem statsOut_cons (cfg : RunCfg) (f : List Nat) (fs : List (List Nat)) :
    statsOut cfg (f :: fs) = (frameStats cfg f).2.2 + statsOut cfg fs := by simp [statsOut]

theorem outChunks_cons (cfg : RunCfg) (f : List Nat) (fs : List (List Nat)) :
    outChunks cfg (f :: fs) = outChunk cfg f ++ outChunks cfg fs := by simp [outChunks]

theorem runSteps_stopped (cfg : RunCfg) (n : Nat) (st : RunState)
    (h : stepGuard cfg st = false) : runSteps cfg n st = st := by
  cases n with
  | zero => rfl
  | succ n => rw [runSteps, if_neg (by simp [h])]

theorem runSteps_add (cfg : RunCfg) (a b : Nat) (st : RunState) :
    runSteps cfg (a + b) st = runSteps cfg b (runSteps cfg a st) := by
  induction a generalizing st with
  | zero => rw [Nat.zero_add]; rfl
  | succ a ih =>
    by_cases hg : stepGuard cfg st = true
    · have h1 : runSteps cfg (a + 1 + b) st = runSteps cfg (a + b) (stepBody cfg st) := by
        rw [show a + 1 + b = (a + b) + 1 from by omega, runSteps, if_pos hg]
      have h2 : runSteps cfg (a + 1) st = runSteps cfg a (stepBody cfg st) := by
        rw [runSteps, if_pos hg]
      rw [h1, h2, ih]
    · have hg2 : stepGuard cfg st = false := by simpa using hg
      rw [runSteps_stopped cfg (a + 1 + b) st hg2, runSteps_stopped cfg (a + 1) st hg2,
        runSteps_stopped cfg b st hg2]

/-- One processing iteration of the run loop: under the frame limit, with a
complete frame `f` next in the stream, the loop consumes it, runs the
enabled stages, and accumulates the per-frame statistics and output. -/
theorem stepBody_process (cfg : RunCfg) (st : RunState) (f rest : List Nat)
    (hraw : st.reader.raw = false) (hg : st.reader.good = true)
    (hrem : st.reader.content.drop st.reader.pos = frameChunk f ++ rest)
    (hf : f.length < 2 ^ 32)
    (hcur : ¬(cfg.framesToProcess ≠ 0 ∧ cfg.framesToProcess ≤ st.currentFrameNum)) :
    stepBody cfg st = { st with
      reader := { st.reader with pos := st.reader.pos + (4 + f.length), good := true,
                                 frameBuf := f ++ st.reader.frameBuf.drop f.length,
                                 frameSize := f.length },
      currentFrameNum := st.currentFrameNum + 1,
      numFrames := st.numFrames + 1,
      sumInputSize := st.sumInputSize + (frameStats cfg f).1,
      sumRawSize := st.sumRawSize + (frameStats cfg f).2.1,
      sumOutputSize := st.sumOutputSize + (frameStats cfg f).2.2,
      decompBrackets := st.decompBrackets + (if cfg.decompress then 1 else 0),
      compBrackets := st.compBrackets + (if cfg.compress then 1 else 0),
      outBytes := st.outBytes ++ outChunk cfg f } := by
  have hc := readFrame_cons cfg.junk st.reader f rest hraw hg hrem hf
  unfold stepBody
  rw [hc]
  dsimp only
  rw [if_neg (by simp only [Bool.true_eq_false, false_or]; exact hcur)]
  simp only [frameBytes, List.take_left]
  simp only [frameStats, outChunk]

/-- Processing `n` frames inside one loop iteration: with `n` frames left
under the limit and at least `n` complete frames in the stream, `runSteps`
consumes them one per iteration, accumulating the per-frame statistics and
output bytes. -/
theorem runSteps_process (cfg : RunCfg) :
    ∀ (n : Nat) (fsRem : List (List Nat)) (st : RunState),
    st.stop = false → st.loop < cfg.loopCount → cfg.framesToProcess ≠ 0 →
    st.currentFrameNum + n = cfg.framesToProcess →
    st.reader.raw = false → st.reader.good = true →
    st.reader.content.drop st.reader.pos = encFrames fsRem →
    n ≤ fsRem.length → (∀ f ∈ fsRem, f.length < 2 ^ 32) →
    ∃ rd : ReaderState, runSteps cfg n st = { st with
        reader := rd,
        currentFrameNum := st.currentFrameNum + n,
        numFrames := st.numFrames + n,
        sumInputSize := st.sumInputSize + statsIn (fsRem.take n),
        sumRawSize := st.sumRawSize + statsRaw cfg (fsRem.take n),
        sumOutputSize := st.sumOutputSize + statsOut cfg (fsRem.take n),
        decompBrackets := st.decompBrackets + (if cfg.decompress then n else 0),
        compBrackets := st.compBrackets + (if cfg.compress then n else 0),
        outBytes := st.outBytes ++ outChunks cfg (fsRem.take n) } ∧
      rd.content = st.reader.content ∧ rd.raw = false ∧ rd.good = true ∧
      rd.headerSize = st.reader.headerSize ∧ rd.sizeImage = st.reader.sizeImage ∧
      rd.content.drop rd.pos = encFrames (fsRem.drop n)
  | 0, fsRem, st, hstop, hloop, hF, hcur, hraw, hg, hrem, hn, hb => by
    refine ⟨st.reader, ?_, rfl, hraw, hg, rfl, rfl, by simpa using hrem⟩
    show st = _
    obtain ⟨rd0, ob, lp, cf, nf, s1, s2, s3, db, cb, sp⟩ := st
    simp [statsIn, statsRaw, statsOut, outChunks]
  | n + 1, fsRem, st, hstop, hloop, hF, hcur, hraw, hg, hrem, hn, hb => by
    rcases fsRem with _ | ⟨f, rest⟩
    · exact absurd hn (by simp)
    · have hrem' := hrem
      rw [encFrames_cons] at hrem'
      have hstep := stepBody_process cfg st f (encFrames rest) hraw hg hrem'
        (hb f (by simp)) (by omega)
      have hguard : stepGuard cfg st = true := by
        simp [stepGuard, hstop, hloop]
      have hrem2 : st.reader.content.drop (st.reader.pos + (4 + f.length))
          = encFrames rest := by
        rw [← List.drop_drop, hrem', List.drop_left' (length_frameChunk f)]
      have hstop2 : (stepBody cfg st).stop = false := by rw [hstep]; exact hstop
      have hloop2 : (stepBody cfg st).loop < cfg.loopCount := by rw [hstep]; exact hloop
      have hcur2 : (stepBody cfg st).currentFrameNum + n = cfg.framesToProcess := by
        rw [hstep]; dsimp only; omega
      have hraw2 : (stepBody cfg st).reader.raw = false := by rw [hstep]; exact hraw
      have hg2 : (stepBody cfg st).reader.good = true := by rw [hstep]
      have hrem3 : (stepBody cfg st).reader.content.drop (stepBody cfg st).reader.pos
          = encFrames rest := by rw [hstep]; exact hrem2
      have hn2 : n ≤ rest.length := by simpa using hn
      have hb2 : ∀ g ∈ rest, g.length < 2 ^ 32 := fun g hgm => hb g (by simp [hgm])
      obtain ⟨rd, heq, hc1, hc2, hc3, hc4, hc5, hc6⟩ :=
        runSteps_process cfg n rest (stepBody cfg st) hstop2 hloop2 hF hcur2 hraw2 hg2
          hrem3 hn2 hb2
      refine ⟨rd, ?_, hc1.trans (by rw [hstep]), hc2, hc3,
        hc4.trans (by rw [hstep]), hc5.trans (by rw [hstep]), by simpa using hc6⟩
      rw [runSteps, if_pos hguard, heq, hstep]
      simp only [List.take_succ_cons, statsIn_cons, statsRaw_cons, statsOut_cons,
        outChunks_cons]
      simp only [RunState.mk.injEq]
      and_intros <;>
        first
          | trivial
          | omega
          | (rw [List.append_assoc])
          | (simp only [frameStats]; omega)
          | (split <;> omega)

/-- The loop-boundary iteration: with the frame limit reached, the body
calls `readFrame` first (side effect only), takes the reset branch —
advancing the loop counter, resetting the frame counter, leaving all
statistics and output untouched — and rewinds when more loops remain. -/
theorem stepBody_finishLoop (cfg : RunCfg) (st : RunState) (fsRem : List (List Nat))
    (hF : cfg.framesToProcess ≠ 0) (hcur : st.currentFrameNum = cfg.framesToProcess)
    (hraw : st.reader.raw = false) (hg : st.reader.good = true)
    (hrem : st.reader.content.drop st.reader.pos = encFrames fsRem)
    (hb : ∀ f ∈ fsRem, f.length < 2 ^ 32) :
    ∃ rd : ReaderState, stepBody cfg st =
        { st with reader := rd, currentFrameNum := 0, loop := st.loop + 1 } ∧
      rd.content = st.reader.content ∧ rd.raw = false ∧
      rd.headerSize = st.reader.headerSize ∧ rd.sizeImage = st.reader.sizeImage ∧
      (st.loop + 1 < cfg.loopCount → rd.good = true ∧ rd.pos = rd.headerSize) := by
  rcases fsRem with _ | ⟨f, rest⟩
  · have hempty : (st.reader.content.drop st.reader.pos).length < 4 := by
      rw [hrem]; simp [encFrames]
    have hshort := readFrame_short cfg.junk st.reader hraw hg hempty
    unfold stepBody
    rw [hshort]
    dsimp only
    rw [if_pos (Or.inl rfl)]
    by_cases hl : st.loop + 1 < cfg.loopCount
    · rw [if_pos hl]
      exact ⟨_, rfl, rfl, hraw, rfl, rfl, fun _ => ⟨rfl, rfl⟩⟩
    · rw [if_neg hl]
      exact ⟨_, rfl, rfl, hraw, rfl, rfl, fun hcon => absurd hcon hl⟩
  · have hrem' := hrem
    rw [encFrames_cons] at hrem'
    have hc := readFrame_cons cfg.junk st.reader f (encFrames rest) hraw hg hrem'
      (hb f (by simp))
    unfold stepBody
    rw [hc]
    dsimp only
    rw [if_pos (Or.inr ⟨hF, by omega⟩)]
    by_cases hl : st.loop + 1 < cfg.loopCount
    · rw [if_pos hl]
      exact ⟨_, rfl, rfl, hraw, rfl, rfl, fun _ => ⟨rfl, rfl⟩⟩
    · rw [if_neg hl]
      exact ⟨_, rfl, rfl, hraw, rfl, rfl, fun hcon => absurd hcon hl⟩

/-- One full loop iteration (`F` processing steps plus the boundary step):
starting at the header offset with the whole frame sequence ahead,
`runSteps (F+1)` processes exactly the first `F` frames, adds their
statistics and output once, advances the loop counter, and leaves the
reader rewound whenever another loop follows. -/
theorem runSteps_oneLoop (cfg : RunCfg) (fs : List (List Nat)) (st : RunState)
    (hstop : st.stop = false) (hl : st.loop < cfg.loopCount)
    (hF : cfg.framesToProcess ≠ 0) (hcur : st.currentFrameNum = 0)
    (hFle : cfg.framesToProcess ≤ fs.length)
    (hraw : st.reader.raw = false) (hg : st.reader.good = true)
    (hpos : st.reader.pos = st.reader.headerSize)
    (hhdr : st.reader.content.drop st.reader.headerSize = encFrames fs)
    (hb : ∀ f ∈ fs, f.length < 2 ^ 32) :
    ∃ rd : ReaderState, runSteps cfg (cfg.framesToProcess + 1) st = { st with
        reader := rd,
        currentFrameNum := 0, loop := st.loop + 1,
        numFrames := st.numFrames + cfg.framesToProcess,
        sumInputSize := st.sumInputSize + statsIn (fs.take cfg.framesToProcess),
        sumRawSize := st.sumRawSize + statsRaw cfg (fs.take cfg.framesToProcess),
        sumOutputSize := st.sumOutputSize + statsOut cfg (fs.take cfg.framesToProcess),
        decompBrackets := st.decompBrackets +
          (if cfg.decompress then cfg.framesToProcess else 0),
        compBrackets := st.compBrackets + (if cfg.compress then cfg.framesToProcess else 0),
        outBytes := st.outBytes ++ outChunks cfg (fs.take cfg.framesToProcess) } ∧
      rd.content = st.reader.content ∧ rd.raw = false ∧
      rd.headerSize = st.reader.headerSize ∧ rd.sizeImage = st.reader.sizeImage ∧
      (st.loop + 1 < cfg.loopCount → rd.good = true ∧ rd.pos = rd.headerSize) := by
  obtain ⟨rd1, heq1, hm1, hm2, hm3, hm4, hm5, hm6⟩ :=
    runSteps_process cfg cfg.framesToProcess fs st hstop hl hF (by omega) hraw hg
      (by rw [hpos, hhdr]) hFle hb
  have hmid1 : (runSteps cfg cfg.framesToProcess st).currentFrameNum
      = cfg.framesToProcess := by rw [heq1]; dsimp only; omega
  have hmid2 : (runSteps cfg cfg.framesToProcess st).reader.raw = false := by
    rw [heq1]; exact hm2
  have hmid3 : (runSteps cfg cfg.framesToProcess st).reader.good = true := by
    rw [heq1]; exact hm3
  have hmid4 : (runSteps cfg cfg.framesToProcess st).reader.content.drop
      (runSteps cfg cfg.framesToProcess st).reader.pos
      = encFrames (fs.drop cfg.framesToProcess) := by rw [heq1]; exact hm6
  have hb2 : ∀ f ∈ fs.drop cfg.framesToProcess, f.length < 2 ^ 32 :=
    fun f hf => hb f (List.mem_of_mem_drop hf)
  obtain ⟨rd2, heq2, hn1, hn2, hn3, hn4, hn5⟩ :=
    stepBody_finishLoop cfg (runSteps cfg cfg.framesToProcess st)
      (fs.drop cfg.framesToProcess) hF hmid1 hmid2 hmid3 hmid4 hb2
  have hguard : stepGuard cfg (runSteps cfg cfg.framesToProcess st) = true := by
    rw [heq1]; simp [stepGuard, hstop, hl]
  refine ⟨rd2, ?_, ?_, hn2, ?_, ?_, ?_⟩
  · rw [runSteps_add cfg cfg.framesToProcess 1, runSteps, if_pos hguard]
    show stepBody cfg (runSteps cfg cfg.framesToProcess st) = _
    rw [heq2, heq1]
  · exact hn1.trans (by rw [heq1]; exact hm1)
  · exact hn3.trans (by rw [heq1]; exact hm4)
  · exact hn4.trans (by rw [heq1]; exact hm5)
  · intro hlt
    have := hn5 (by rw [heq1]; dsimp only; omega)
    exact this

/-- `m` remaining loop iterations: from a loop-start state, `runSteps` over
`m * (F+1)` iterations adds the single-loop statistics and output exactly
`m` times and leaves the loop counter at `loopCount` (so the `while` guard
is false). -/
theorem runSteps_loops (cfg : RunCfg) (fs : List (List Nat)) :
    ∀ (m : Nat) (st : RunState),
    st.stop = false → st.loop + m = cfg.loopCount →
    cfg.framesToProcess ≠ 0 → st.currentFrameNum = 0 →
    cfg.framesToProcess ≤ fs.length →
    st.reader.raw = false →
    st.reader.content.drop st.reader.headerSize = encFrames fs →
    (m ≠ 0 → st.reader.good = true ∧ st.reader.pos = st.reader.headerSize) →
    (∀ f ∈ fs, f.length < 2 ^ 32) →
    ∃ rd : ReaderState, runSteps cfg (m * (cfg.framesToProcess + 1)) st = { st with
        reader := rd,
        loop := cfg.loopCount, currentFrameNum := 0,
        numFrames := st.numFrames + m * cfg.framesToProcess,
        sumInputSize := st.sumInputSize + m * statsIn (fs.take cfg.framesToProcess),
        sumRawSize := st.sumRawSize + m * statsRaw cfg (fs.take cfg.framesToProcess),
        sumOutputSize := st.sumOutputSize + m * statsOut cfg (fs.take cfg.framesToProcess),
        decompBrackets := st.decompBrackets +
          (if cfg.decompress then m * cfg.framesToProcess else 0),
        compBrackets := st.compBrackets +
          (if cfg.compress then m * cfg.framesToProcess else 0),
        outBytes := st.outBytes ++
          (List.replicate m (outChunks cfg (fs.take cfg.framesToProcess))).flatten }
  | 0, st, hstop, hm, hF, hcur, hFle, hraw, hhdr, hready, hb => by
    refine ⟨st.reader, ?_⟩
    rw [Nat.zero_mul]
    show st = _
    obtain ⟨rd0, ob, lp, cf, nf, s1, s2, s3, db, cb, sp⟩ := st
    simp only at hm hcur
    simp only [RunState.mk.injEq]
    and_intros <;>
      first
        | trivial
        | omega
        | simp
        | (split <;> omega)
  | m + 1, st, hstop, hm, hF, hcur, hFle, hraw, hhdr, hready, hb => by
    have hgp := hready (by omega)
    obtain ⟨rd1, heq1, hc1, hc2, hc3, hc4, hc5⟩ :=
      runSteps_oneLoop cfg fs st hstop (by omega) hF hcur hFle hraw hgp.1 hgp.2 hhdr hb
    have M := runSteps cfg (cfg.framesToProcess + 1) st
    have hstop2 : (runSteps cfg (cfg.framesToProcess + 1) st).stop = false := by
      rw [heq1]; exact hstop
    have hloop2 : (runSteps cfg (cfg.framesToProcess + 1) st).loop + m = cfg.loopCount := by
      rw [heq1]; dsimp only; omega
    have hcur2 : (runSteps cfg (cfg.framesToProcess + 1) st).currentFrameNum = 0 := by
      rw [heq1]
    have hraw2 : (runSteps cfg (cfg.framesToProcess + 1) st).reader.raw = false := by
      rw [heq1]; exact hc2
    have hhdr2 : (runSteps cfg (cfg.framesToProcess + 1) st).reader.content.drop
        (runSteps cfg (cfg.framesToProcess + 1) st).reader.headerSize = encFrames fs := by
      rw [heq1]; dsimp only; rw [hc1, hc3, hhdr]
    have hready2 : m ≠ 0 →
        (runSteps cfg (cfg.framesToProcess + 1) st).reader.good = true ∧
        (runSteps cfg (cfg.framesToProcess + 1) st).reader.pos
          = (runSteps cfg (cfg.framesToProcess + 1) st).reader.headerSize := by
      intro hm0
      have := hc5 (by omega)
      rw [heq1]
      exact this
    obtain ⟨rd2, heq2⟩ :=
      runSteps_loops cfg fs m (runSteps cfg (cfg.framesToProcess + 1) st)
        hstop2 hloop2 hF hcur2 hFle hraw2 hhdr2 hready2 hb
    refine ⟨rd2, ?_⟩
    rw [show (m + 1) * (cfg.framesToProcess + 1)
        = (cfg.framesToProcess + 1) + m * (cfg.framesToProcess + 1) from by ring,
      runSteps_add, heq2, heq1]
    simp only [RunState.mk.injEq]
    and_intros
    all_goals try trivial
    all_goals try omega
    all_goals try ring
    all_goals try (split_ifs <;> ring)
    all_goals try (rw [Nat.add_comm 1 m, List.replicate_succ, List.flatten_cons,
      List.append_assoc])

theorem length_writer_header (fmt : List Nat) (hfmt : decodeU32 fmt = fmt.length) :
    (VideoWriter.openFile (some fmt)).length = 8 + fmt.length := by
  rw [writer_header fmt hfmt]
  simp [length_encodeU32]
  omega

/-- C4: Loop property — over a container source with at least `F` frames,
running the orchestrator with `framesToProcess = F > 0` and `loopCount = K`
terminates after exactly `K * (F + 1)` guard iterations (the while guard is
then false), has processed exactly `K * F` frames, and each cumulative
statistic (frame count, input bytes, post-decode bytes, output bytes)
equals exactly `K` times the corresponding total of a single loop
(`loopCount = 1`) over the same `F` frames, for any combination of stages
and any (deterministic) codec capabilities. -/
theorem loop_statistics (junk : Nat) (fmt : List Nat) (frames : List (List Nat))
    (de co wo ro : Bool) (dfn cfn : List Nat → List Nat) (dsz : Nat) (K F : Nat)
    (hfmt : decodeU32 fmt = fmt.length) (hfb : fmt.length < 2 ^ 32)
    (hframes : ∀ f ∈ frames, f.length < 2 ^ 32)
    (hF : 0 < F) (hFle : F ≤ frames.length) :
    ∃ s, VideoReader.openFile true junk (containerBytes fmt frames) = Except.ok s ∧
      ((runSteps ⟨de, co, wo, ro, F, K, dfn, dsz, cfn, junk⟩ (K * (F + 1))
          (initRun s)).numFrames = K * F ∧
       stepGuard ⟨de, co, wo, ro, F, K, dfn, dsz, cfn, junk⟩
         (runSteps ⟨de, co, wo, ro, F, K, dfn, dsz, cfn, junk⟩ (K * (F + 1))
           (initRun s)) = false ∧
       (runSteps ⟨de, co, wo, ro, F, K, dfn, dsz, cfn, junk⟩ (K * (F + 1))
           (initRun s)).numFrames
         = K * (runSteps ⟨de, co, wo, ro, F, 1, dfn, dsz, cfn, junk⟩ (1 * (F + 1))
             (initRun s)).numFrames ∧
       (runSteps ⟨de, co, wo, ro, F, K, dfn, dsz, cfn, junk⟩ (K * (F + 1))
           (initRun s)).sumInputSize
         = K * (runSteps ⟨de, co, wo, ro, F, 1, dfn, dsz, cfn, junk⟩ (1 * (F + 1))
             (initRun s)).sumInputSize ∧
       (runSteps ⟨de, co, wo, ro, F, K, dfn, dsz, cfn, junk⟩ (K * (F + 1))
           (initRun s)).sumRawSize
         = K * (runSteps ⟨de, co, wo, ro, F, 1, dfn, dsz, cfn, junk⟩ (1 * (F + 1))
             (initRun s)).sumRawSize ∧
       (runSteps ⟨de, co, wo, ro, F, K, dfn, dsz, cfn, junk⟩ (K * (F + 1))
           (initRun s)).sumOutputSize
         = K * (runSteps ⟨de, co, wo, ro, F, 1, dfn, dsz, cfn, junk⟩ (1 * (F + 1))
             (initRun s)).sumOutputSize) := by
  refine ⟨_, openFile_container junk fmt (encFrames frames) hfmt hfb, ?_⟩
  have hhdr : ∀ s : ReaderState,
      s.content = VideoWriter.openFile (some fmt) ++ encFrames frames →
      s.headerSize = 8 + fmt.length →
      s.content.drop s.headerSize = encFrames frames := by
    intro s h1 h2
    rw [h1, h2, List.drop_left' (length_writer_header fmt hfmt)]
  obtain ⟨rdK, heqK⟩ :=
    runSteps_loops (⟨de, co, wo, ro, F, K, dfn, dsz, cfn, junk⟩ : RunCfg) frames K
      (initRun { content := VideoWriter.openFile (some fmt) ++ encFrames frames,
                 pos := 8 + fmt.length, good := true, raw := false,
                 fmtBytes := fmt, sizeImage := bihSizeImage fmt,
                 headerSize := 8 + fmt.length, frameBuf := [], frameSize := 0 })
      rfl (Nat.zero_add K) (Nat.pos_iff_ne_zero.mp hF) rfl hFle rfl
      (hhdr _ rfl rfl) (fun _ => ⟨rfl, rfl⟩) hframes
  obtain ⟨rd1, heq1⟩ :=
    runSteps_loops (⟨de, co, wo, ro, F, 1, dfn, dsz, cfn, junk⟩ : RunCfg) frames 1
      (initRun { content := VideoWriter.openFile (some fmt) ++ encFrames frames,
                 pos := 8 + fmt.length, good := true, raw := false,
                 fmtBytes := fmt, sizeImage := bihSizeImage fmt,
                 headerSize := 8 + fmt.length, frameBuf := [], frameSize := 0 })
      rfl (Nat.zero_add 1) (Nat.pos_iff_ne_zero.mp hF) rfl hFle rfl
      (hhdr _ rfl rfl) (fun _ => ⟨rfl, rfl⟩) hframes
  have hsr : statsRaw (⟨de, co, wo, ro, F, 1, dfn, dsz, cfn, junk⟩ : RunCfg) (frames.take F)
      = statsRaw (⟨de, co, wo, ro, F, K, dfn, dsz, cfn, junk⟩ : RunCfg) (frames.take F) := rfl
  have hso : statsOut (⟨de, co, wo, ro, F, 1, dfn, dsz, cfn, junk⟩ : RunCfg) (frames.take F)
      = statsOut (⟨de, co, wo, ro, F, K, dfn, dsz, cfn, junk⟩ : RunCfg) (frames.take F) := rfl
  rw [heqK, heq1]
  dsimp only [initRun]
  rw [hsr, hso]
  refine ⟨by ring, ?_, by ring, by ring, by ring, by ring⟩
  simp [stepGuard]

/-- Witness for C4 at a two-frame container, `F = 1`, `K = 2`, all stages
off except writing. -/
theorem loop_statistics_witness :
    ∃ s, VideoReader.openFile true 0 (containerBytes (encodeU32 12 ++ [0, 0, 0, 0, 0, 0, 0, 0]) [[1, 2], [3]]) = Except.ok s ∧
      ((runSteps (⟨false, false, true, false, 1, 2, id, 0, id, 0⟩ : RunCfg) (2 * (1 + 1)) (initRun s)).numFrames = 2 * 1 ∧
       stepGuard (⟨false, false, true, false, 1, 2, id, 0, id, 0⟩ : RunCfg) (runSteps (⟨false, false, true, false, 1, 2, id, 0, id, 0⟩ : RunCfg) (2 * (1 + 1)) (initRun s)) = false ∧
       (runSteps (⟨false, false, true, false, 1, 2, id, 0, id, 0⟩ : RunCfg) (2 * (1 + 1)) (initRun s)).numFrames = 2 * (runSteps (⟨false, false, true, false, 1, 1, id, 0, id, 0⟩ : RunCfg) (1 * (1 + 1)) (initRun s)).numFrames ∧
       (runSteps (⟨false, false, true, false, 1, 2, id, 0, id, 0⟩ : RunCfg) (2 * (1 + 1)) (initRun s)).sumInputSize = 2 * (runSteps (⟨false, false, true, false, 1, 1, id, 0, id, 0⟩ : RunCfg) (1 * (1 + 1)) (initRun s)).sumInputSize ∧
       (runSteps (⟨false, false, true, false, 1, 2, id, 0, id, 0⟩ : RunCfg) (2 * (1 + 1)) (initRun s)).sumRawSize = 2 * (runSteps (⟨false, false, true, false, 1, 1, id, 0, id, 0⟩ : RunCfg) (1 * (1 + 1)) (initRun s)).sumRawSize ∧
       (runSteps (⟨false, false, true, false, 1, 2, id, 0, id, 0⟩ : RunCfg) (2 * (1 + 1)) (initRun s)).sumOutputSize = 2 * (runSteps (⟨false, false, true, false, 1, 1, id, 0, id, 0⟩ : RunCfg) (1 * (1 + 1)) (initRun s)).sumOutputSize) :=
  loop_statistics 0 (encodeU32 12 ++ [0, 0, 0, 0, 0, 0, 0, 0]) [[1, 2], [3]] false false true false id id 0 2 1
    (by decide) (by decide) (by decide) (by decide) (by decide)

/-- C6: No-compression short-circuit — when `Compressor::init` reports "no
compression" (`none`), `initOutput` disables the encode stage without error
and the output descriptor equals the decode-stage descriptor; over any run
so configured, the cumulative output bytes equal the post-decode bytes, no
encode timing brackets accumulate, and every frame written is the length
prefix plus exactly the decode-stage bytes. -/
theorem no_compression_passthrough (junk : Nat) (fmt : List Nat)
    (frames : List (List Nat)) (de wo ro : Bool) (dfn cfn : List Nat → List Nat)
    (dsz : Nat) (K F : Nat)
    (hfmt : decodeU32 fmt = fmt.length) (hfb : fmt.length < 2 ^ 32)
    (hframes : ∀ f ∈ frames, f.length < 2 ^ 32)
    (hF : 0 < F) (hFle : F ≤ frames.length)
    (hdl : ∀ b, (dfn b).length = dsz) :
    (∀ fd : List Nat, initOutput true none fd = (false, fd)) ∧
    ∃ s, VideoReader.openFile true junk (containerBytes fmt frames) = Except.ok s ∧
      ((runSteps ⟨de, false, wo, ro, F, K, dfn, dsz, cfn, junk⟩ (K * (F + 1))
          (initRun s)).sumOutputSize
        = (runSteps ⟨de, false, wo, ro, F, K, dfn, dsz, cfn, junk⟩ (K * (F + 1))
            (initRun s)).sumRawSize ∧
       (runSteps ⟨de, false, wo, ro, F, K, dfn, dsz, cfn, junk⟩ (K * (F + 1))
          (initRun s)).compBrackets = 0 ∧
       (runSteps ⟨de, false, wo, ro, F, K, dfn, dsz, cfn, junk⟩ (K * (F + 1))
          (initRun s)).outBytes
        = (List.replicate K (((frames.take F).map (fun f =>
            if wo then (if ro then [] else encodeU32 (if de then dsz else f.length)) ++
              (if de then dfn f else f) else [])).flatten)).flatten) := by
  have houtChunk : ∀ f : List Nat,
      outChunk (⟨de, false, wo, ro, F, K, dfn, dsz, cfn, junk⟩ : RunCfg) f
      = if wo then (if ro then [] else encodeU32 (if de then dsz else f.length)) ++
          (if de then dfn f else f) else [] := by
    intro f
    simp only [outChunk, frameStats, VideoWriter.writeFrame]
    by_cases hwo : wo
    · simp only [hwo, if_true]
      by_cases hde : de
      · simp only [hde, if_true, Bool.false_eq_true, if_false,
          List.take_of_length_le (le_of_eq (hdl f))]
      · simp only [hde, Bool.false_eq_true, if_false, List.take_length]
    · simp only [hwo, Bool.false_eq_true, if_false]
  refine ⟨fun fd => rfl, _, openFile_container junk fmt (encFrames frames) hfmt hfb, ?_⟩
  have hhdr : (VideoWriter.openFile (some fmt) ++ encFrames frames).drop (8 + fmt.length)
      = encFrames frames := List.drop_left' (length_writer_header fmt hfmt)
  obtain ⟨rd, heq⟩ :=
    runSteps_loops (⟨de, false, wo, ro, F, K, dfn, dsz, cfn, junk⟩ : RunCfg) frames K
      (initRun { content := VideoWriter.openFile (some fmt) ++ encFrames frames,
                 pos := 8 + fmt.length, good := true, raw := false,
                 fmtBytes := fmt, sizeImage := bihSizeImage fmt,
                 headerSize := 8 + fmt.length, frameBuf := [], frameSize := 0 })
      rfl (Nat.zero_add K) (Nat.pos_iff_ne_zero.mp hF) rfl hFle rfl hhdr
      (fun _ => ⟨rfl, rfl⟩) hframes
  have hoc : outChunks (⟨de, false, wo, ro, F, K, dfn, dsz, cfn, junk⟩ : RunCfg)
      (frames.take F)
      = ((frames.take F).map (fun f =>
          if wo then (if ro then [] else encodeU32 (if de then dsz else f.length)) ++
            (if de then dfn f else f) else [])).flatten := by
    unfold outChunks
    congr 1
    exact List.map_congr_left (fun f _ => houtChunk f)
  rw [heq, hoc]
  dsimp only [initRun]
  refine ⟨rfl, by simp, by simp⟩

/-- Witness for C6: two-frame container, `F = 1`, `K = 2`, no decode stage,
compression off after a `none` negotiation. -/
theorem no_compression_passthrough_witness :
    (∀ fd : List Nat, initOutput true none fd = (false, fd)) ∧
    ∃ s, VideoReader.openFile true 0 (containerBytes (encodeU32 12 ++ [0, 0, 0, 0, 0, 0, 0, 0]) [[1, 2], [3]]) = Except.ok s ∧
      ((runSteps (⟨false, false, true, false, 1, 2, fun _ => [0, 0], 2, id, 0⟩ : RunCfg) (2 * (1 + 1)) (initRun s)).sumOutputSize = (runSteps (⟨false, false, true, false, 1, 2, fun _ => [0, 0], 2, id, 0⟩ : RunCfg) (2 * (1 + 1)) (initRun s)).sumRawSize ∧
       (runSteps (⟨false, false, true, false, 1, 2, fun _ => [0, 0], 2, id, 0⟩ : RunCfg) (2 * (1 + 1)) (initRun s)).compBrackets = 0 ∧
       (runSteps (⟨false, false, true, false, 1, 2, fun _ => [0, 0], 2, id, 0⟩ : RunCfg) (2 * (1 + 1)) (initRun s)).outBytes
        = (List.replicate 2 ((([[1, 2], [3]].take 1).map (fun f =>
            if true then
              (if false then [] else encodeU32 (if false then 2 else f.length)) ++
                (if false then (fun _ => [0, 0] : List Nat → List Nat) f else f)
            else [])).flatten)).flatten) :=
  no_compression_passthrough 0 (encodeU32 12 ++ [0, 0, 0, 0, 0, 0, 0, 0]) [[1, 2], [3]] false true false (fun _ => [0, 0]) id 2 2 1
    (by decide) (by decide) (by decide) (by decide) (by decide) (fun _ => rfl)

theorem ndAdjust_fst (fmt : Option String) (w h : Int) :
    (ndAdjust fmt w h).1 = (none, 0, 0) := by
  unfold ndAdjust
  rcases fmt with _ | v <;> split_ifs <;> simp_all

/-- C7: Exit codes — `main` returns 0 on normal completion and 1 on every
reported failure, printing the single message; the interrupt only sets the
stop flag, which the run-loop guard observes: a stopped run performs no
further iterations and preserves every gathered statistic (it then falls
through to the final print and exit 0 like an exhausted input).  Missing
input file and unsupported format are concrete reported failures. -/
theorem exit_codes :
    (mainExit (Except.ok ()) = (0, none)) ∧
    (∀ e, mainExit (Except.error e) = (1, some e)) ∧
    (∀ (cfg : RunCfg) (n : Nat) (st : RunState), st.stop = true →
      runSteps cfg n st = st) ∧
    (initArguments ["codecbench", "-nc"]
      = Except.error "ERROR: No input file given (-i)!\n") ∧
    (∀ w h : Int, GetDecompFormat "XYZV" w h
      = Except.error ("Invalid requested decompressed format: " ++ "XYZV")) := by
  refine ⟨rfl, fun e => rfl, ?_, by rfl, ?_⟩
  · intro cfg n st hstop
    exact runSteps_stopped cfg n st (by simp [stepGuard, hstop])
  · intro w h
    unfold GetDecompFormat
    rw [if_neg (by decide), if_neg (by decide), if_neg (by decide), if_neg (by decide),
      if_neg (by decide), if_neg (by decide), if_neg (by decide), if_neg (by decide),
      if_neg (by decide), if_neg (by decide), if_neg (by decide), if_neg (by decide),
      if_neg (by decide)]

/-- Witness for C7: a stopped run over three loop iterations changes
nothing, and an error exits 1 with its message. -/
theorem exit_codes_witness :
    runSteps (⟨false, false, false, false, 0, 5, id, 0, id, 0⟩ : RunCfg) 3
      { reader := ⟨[], 0, true, false, [], 0, 0, [], 0⟩, outBytes := [], loop := 0,
        currentFrameNum := 0, numFrames := 7, sumInputSize := 8, sumRawSize := 9,
        sumOutputSize := 10, decompBrackets := 0, compBrackets := 0, stop := true }
      = { reader := ⟨[], 0, true, false, [], 0, 0, [], 0⟩, outBytes := [], loop := 0,
          currentFrameNum := 0, numFrames := 7, sumInputSize := 8, sumRawSize := 9,
          sumOutputSize := 10, decompBrackets := 0, compBrackets := 0, stop := true } ∧
    mainExit (Except.error "boom") = (1, some "boom") :=
  ⟨exit_codes.2.2.1 ⟨false, false, false, false, 0, 5, id, 0, id, 0⟩ 3 _ rfl,
   exit_codes.2.1 "boom"⟩

/-- C10 counterexample: `-w 0` together with `-nd` on a non-raw input is
supplying `-w`, yet the program prints no warning for it — the run
completes with no warnings at all (the warning is keyed on the parsed value
being nonzero, and 0 is the default). -/
theorem nd_zero_width_no_warning_cex :
    initArguments ["codecbench", "-i", "x", "-nd", "-w", "0"]
      = Except.ok ({ rawin := false, rawout := false, decompress := false, compress := true,
                     decompFormat := none, decompWidth := 0, decompHeight := 0,
                     framesToProcess := 0, loopCount := 1, infile := some "x",
                     outfile := none }, []) := by
  rfl

/-- C10 amended: with `-nd` on a non-raw input the run proceeds without a
fatal error and the `-f` / `-w` / `-h` values are always discarded (left
absent/zero); a warning is printed for `-f` exactly when it was given with
a value, and for `-w` / `-h` exactly when the supplied value parses to a
nonzero integer — an explicit zero or unparsable value is discarded
silently. -/
theorem nd_ignores_options (fmt : Option String) (w h : Int) (r : RawArgs) (x : String) :
    (ndAdjust fmt w h =
      ((none, 0, 0),
       (if fmt.isSome then ["WARNING: ignoring -f option because -nd option was given"]
        else []) ++
       (if w ≠ 0 then ["WARNING: ignoring -w option because -nd option was given"]
        else []) ++
       (if h ≠ 0 then ["WARNING: ignoring -h option because -nd option was given"]
        else []))) ∧
    (r.rawin = false → r.decompress = false → r.infile = some x →
      ∃ cfg ws, verifyArgs r = Except.ok (cfg, ws) ∧
        cfg.decompFormat = none ∧ cfg.decompWidth = 0 ∧ cfg.decompHeight = 0) := by
  constructor
  · unfold ndAdjust
    rcases fmt with _ | v <;> split_ifs <;> simp_all
  · intro hri hd hin
    unfold verifyArgs
    rw [hin, hri, hd]
    dsimp only
    refine ⟨_, _, rfl, ?_, ?_, ?_⟩
    · show (ndAdjust r.decompFormat r.decompWidth r.decompHeight).1.1 = none
      rw [ndAdjust_fst]
    · show (ndAdjust r.decompFormat r.decompWidth r.decompHeight).1.2.1 = 0
      rw [ndAdjust_fst]
    · show (ndAdjust r.decompFormat r.decompWidth r.decompHeight).1.2.2 = 0
      rw [ndAdjust_fst]

/-- Witness for the amended C10: `-f YV12 -w 3 -h 0` under `-nd`. -/
theorem nd_ignores_options_witness :
    ∃ cfg ws, verifyArgs ⟨false, false, false, true, some "YV12", 3, 0, 0, 1,
        some "in", none⟩ = Except.ok (cfg, ws) ∧
      cfg.decompFormat = none ∧ cfg.decompWidth = 0 ∧ cfg.decompHeight = 0 :=
  (nd_ignores_options (some "YV12") 3 0
    ⟨false, false, false, true, some "YV12", 3, 0, 0, 1, some "in", none⟩ "in").2
    rfl rfl rfl
